import Mathlib

/-!
Shallow embedding of the vectorized backtesting engine of the
Technical-Analysis-Backtesting-Module repository (SMABacktester.py,
EMABacktester.py, MACDBacktester.py, RSIBacktester.py, SOBacktester.py and the
dispatch facade Backetester.py).

Modeling conventions:
* pandas/NumPy float arithmetic is modeled by exact arithmetic in an arbitrary
  linear ordered field, so every engine definition is polymorphic in the scalar
  type and computable (witnesses evaluate at the rationals, real-valued
  statements instantiate at the reals).
* An undefined cell (NaN) of a pandas column is Option.none; a column is a
  List (Option _) aligned with the row index; pandas dropna keeps the rows
  where every column of interest is defined.  The Open/High/Low/Close/Volume
  columns of the frames are never NaN (they come straight from the data
  provider), so they never influence dropna and are carried only where used.
* np.log and np.exp have no exact counterpart on a general field, so they are
  passed as explicit function parameters (written logQ and expF below);
  real-valued theorems instantiate them with Real.log and Real.exp.
* Python int() truncates toward zero; scipy.optimize.brute with finish=None
  evaluates the full Cartesian grid (numpy mgrid of slice(start, stop, step))
  and returns the first grid point, in row-major order, attaining the minimal
  objective value.
-/

namespace TAB

variable {α : Type} [LinearOrderedField α]

/-- Inclusive running sums, as computed by pandas Series.cumsum: entry i is
the sum of entries 0..i of the input (the sum at the first index is the first
entry itself, not an empty sum). -/
def cumsum : List α → List α
  | [] => []
  | x :: xs => x :: (cumsum xs).map (fun y => x + y)

/-- Sequence a list of optional cells: defined iff every cell is defined. -/
def allSome {β : Type} : List (Option β) → Option (List β)
  | [] => some []
  | none :: _ => none
  | some x :: t => (allSome t).map (fun l => x :: l)

/-- The w cells of a column ending at index i (trailing, non-centered window),
defined iff the index has at least w periods of history and every cell of the
window is defined. -/
def windowEnd {β : Type} (w i : ℕ) (xs : List (Option β)) : Option (List β) :=
  if w ≤ i + 1 then allSome ((xs.drop (i + 1 - w)).take w) else none

/-- pandas Series.rolling(w).mean() with the default min_periods = w: the cell
at index i is defined iff the full trailing window of length w exists and is
fully defined there.  pandas rejects w = 0 at call time; that regime is modeled
as an all-undefined column and is not relied upon by any theorem. -/
def rollingMeanOpt (w : ℕ) (xs : List (Option α)) : List (Option α) :=
  (List.range xs.length).map fun i =>
    if w = 0 then none else (windowEnd w i xs).map (fun l => l.sum / (w : α))

/-- pandas Series.rolling(w).min() over an always-defined column. -/
def rollingMinC (w : ℕ) (xs : List α) : List (Option α) :=
  (List.range xs.length).map fun i =>
    if w = 0 then none else (windowEnd w i (xs.map some)).bind (fun l => l.min?)

/-- pandas Series.rolling(w).max() over an always-defined column. -/
def rollingMaxC (w : ℕ) (xs : List α) : List (Option α) :=
  (List.range xs.length).map fun i =>
    if w = 0 then none else (windowEnd w i (xs.map some)).bind (fun l => l.max?)

/-- np.log(Close / Close.shift(1)): undefined at index 0 (shift introduces a
NaN), the floating-point logarithm is abstracted as logQ (prices from the data
provider are positive, so the ratio is in the domain of the true log). -/
def logReturns (logQ : α → α) (closes : List α) : List (Option α) :=
  (List.range closes.length).map fun i =>
    if i = 0 then none else some (logQ (closes.getD i 0 / closes.getD (i - 1) 0))

/-- pandas Series.ewm(span = s, min_periods = m).mean() with the defaults
adjust = True and ignore_na = False: at index t the weight of the defined cell
at index i is (1 - a)^(t-i) with a = 2/(s+1), and the output is defined iff at
least m defined cells have been seen.  An all-zero weight sum would be NaN in
pandas; it is modeled as none (unreachable for the columns of this code, whose
undefined cells form a prefix). -/
def ewmMean (s m : ℕ) (xs : List (Option α)) : List (Option α) :=
  (List.range xs.length).map fun t =>
    let pairs := (List.range (t + 1)).filterMap fun i =>
      ((xs.getD i none).map fun v => (t - i, v))
    if m ≤ pairs.length then
      let b : α := 1 - 2 / ((s : α) + 1)
      let den := (pairs.map (fun p => b ^ p.1)).sum
      if den = 0 then none else
        some ((pairs.map (fun p => b ^ p.1 * p.2)).sum / den)
    else none

/-- A row survives dropna over two optional columns iff both cells are defined. -/
def row2 {β γ : Type} : Option β → Option γ → Option (β × γ)
  | some x, some y => some (x, y)
  | _, _ => none

/-- A row survives dropna over three optional columns iff all cells are defined. -/
def row3 {β γ δ : Type} : Option β → Option γ → Option δ → Option (β × γ × δ)
  | some x, some y, some z => some (x, y, z)
  | _, _, _ => none

/-- The optional rows of a three-column frame before dropna: a row is defined
iff all its cells are. -/
def dropCells3 (a b c : List (Option α)) : List (Option (α × α × α)) :=
  List.zipWith3 row3 a b c

/-- dropna over a three-column frame: keep the rows where all cells are defined. -/
def dropRows3 (a b c : List (Option α)) : List (α × α × α) :=
  (dropCells3 a b c).reduceOption

/-- The optional rows of a four-column frame before dropna. -/
def dropCells4 (a b c d : List (Option α)) : List (Option (α × (α × α × α))) :=
  List.zipWith (fun x y => row2 x y) a (List.zipWith3 row3 b c d)

/-- dropna over a four-column frame. -/
def dropRows4 (a b c d : List (Option α)) : List (α × (α × α × α)) :=
  (dropCells4 a b c d).reduceOption

/-- The optional rows of a five-column frame before dropna. -/
def dropCells5 (a b c d e : List (Option α)) :
    List (Option ((α × α) × (α × α × α))) :=
  List.zipWith (fun x y => row2 x y) (List.zipWith (fun x y => row2 x y) a b)
    (List.zipWith3 row3 c d e)

/-- dropna over a five-column frame. -/
def dropRows5 (a b c d e : List (Option α)) :
    List ((α × α) × (α × α × α)) :=
  (dropCells5 a b c d e).reduceOption

/-- np.where(fast > slow, 1, -1) over the restricted frame: the crossover
position rule shared by the SMA, EMA, MACD and SO families (long when the fast
indicator is above the slow one, short otherwise, no flat state). -/
def crossPositions (fs : List (α × α)) : List α :=
  fs.map fun p => if p.1 > p.2 then (1 : α) else -1

/-- The three position lines of RSIBacktester.test_strategy.  First np.where:
-1 where RSI is above the upper band, NaN elsewhere. -/
def rsiPosStep1 (upper : α) (rsi : List α) : List (Option α) :=
  rsi.map fun r => if r > upper then some (-1 : α) else none

/-- Second np.where: 1 where RSI is below the lower band, otherwise the value
from the first step. -/
def rsiPosStep2 (upper lower : α) (rsi : List α) : List (Option α) :=
  List.zipWith (fun r p => if r < lower then some (1 : α) else p)
    rsi (rsiPosStep1 upper rsi)

/-- position.fillna(0): every cell left NaN by the two np.where steps becomes
flat (0).  There is no forward fill in the source. -/
def rsiPositions (upper lower : α) (rsi : List α) : List α :=
  (rsiPosStep2 upper lower rsi).map (fun p => p.getD 0)

/-- position.shift(1) * returns over the restricted frame: NaN at the first
row, previous position times current log-return afterwards. -/
def rawStrategy (rets pos : List α) : List (Option α) :=
  List.zipWith (fun p r => p.map (fun v => v * r)) (none :: pos.map some) rets

/-- One row of the frame that survives the second dropna of test_strategy
(the rows where the shifted strategy return is defined). -/
structure RRow (α : Type) where
  ret : α
  pos : α
  strat : α
deriving DecidableEq, Repr

/-- The second dropna of test_strategy: the only cell that can be NaN at that
point is the shifted strategy return (NaN exactly at the first row of the
restricted frame), so the frame keeps the rows where it is defined. -/
def resultRows (rets pos : List α) : List (RRow α) :=
  (List.zipWith (fun (rp : α × α) s => s.map fun sv => RRow.mk rp.1 rp.2 sv)
    (rets.zip pos) (rawStrategy rets pos)).reduceOption

/-- position.diff().fillna(0).abs(): 0 at the first row of the result frame,
the absolute position change between consecutive result rows afterwards. -/
def tradesList (ps : List α) : List α :=
  match ps with
  | [] => []
  | _ :: tl => 0 :: List.zipWith (fun prev cur => |cur - prev|) ps tl

/-- strategy - trades * tc: the net strategy return column. -/
def netStrategy (tc : α) (rows : List (RRow α)) : List α :=
  List.zipWith (fun s t => s - t * tc) (rows.map RRow.strat)
    (tradesList (rows.map RRow.pos))

/-- The scalar pair returned by test_strategy: absolute performance (last
cumulative strategy value) and out- or underperformance versus buy-and-hold. -/
structure BTOutput (α : Type) where
  perf : α
  outperf : α
deriving DecidableEq, Repr

/-- The result frame stored by SMABacktester.test_strategy (which, unlike the
other variants, computes no trades column and subtracts no transaction cost). -/
structure PlainResult (α : Type) where
  rows : List (RRow α)
  creturns : List α
  cstrategy : List α
deriving DecidableEq, Repr

/-- The result frame stored by the costed variants (EMA, MACD, RSI, SO):
trades column and strategy column net of transaction costs included. -/
structure CostResult (α : Type) where
  rows : List (RRow α)
  trades : List α
  net : List α
  creturns : List α
  cstrategy : List α
deriving DecidableEq, Repr

/-- The tail of SMABacktester.test_strategy: cumulative columns from the raw
strategy returns (no transaction-cost handling anywhere in that class), then
perf = cstrategy.iloc[-1] and outperf = perf - creturns.iloc[-1]; iloc[-1] on
an empty frame raises (modeled as none). -/
def runPlain (expF : α → α) (rets pos : List α) :
    PlainResult α × Option (BTOutput α) :=
  let rows := resultRows rets pos
  let cret := (cumsum (rows.map RRow.ret)).map expF
  let cstrat := (cumsum (rows.map RRow.strat)).map expF
  (⟨rows, cret, cstrat⟩,
    match cstrat.getLast?, cret.getLast? with
    | some p, some c => some ⟨p, p - c⟩
    | _, _ => none)

/-- The tail of test_strategy for the costed variants: trades column, strategy
net of costs, cumulative columns, then the scalar pair (iloc[-1] on an empty
frame raises, modeled as none). -/
def runCosted (expF : α → α) (tc : α) (rets pos : List α) :
    CostResult α × Option (BTOutput α) :=
  let rows := resultRows rets pos
  let tr := tradesList (rows.map RRow.pos)
  let net := netStrategy tc rows
  let cret := (cumsum (rows.map RRow.ret)).map expF
  let cstrat := (cumsum net).map expF
  (⟨rows, tr, net, cret, cstrat⟩,
    match cstrat.getLast?, cret.getLast? with
    | some p, some c => some ⟨p, p - c⟩
    | _, _ => none)

/-- Python int() applied to a float: truncation toward zero. -/
def pyTrunc [FloorRing α] (x : α) : ℤ :=
  if 0 ≤ x then ⌊x⌋ else ⌈x⌉

/-- pandas rolling over the Close column with an int window coming from Python
(the sources call rolling(self.SMA_S) with an int attribute; a nonpositive
window would make pandas raise, and no theorem relies on that regime). -/
def rollingMeanZ (w : ℤ) (closes : List α) : List (Option α) :=
  rollingMeanOpt w.toNat (closes.map some)

/-- The grid points of one slice(start, stop, step) axis handed to
scipy.optimize.brute: start, start+step, ... strictly below stop (numpy mgrid
semantics for a real step; a nonpositive step is not used by the callers). -/
def arange [FloorRing α] (r : α × α × α) : List α :=
  if r.2.2 ≤ 0 then [] else
    (List.range (⌈(r.2.1 - r.1) / r.2.2⌉.toNat)).map fun k => r.1 + (k : α) * r.2.2

/-- The full two-axis Cartesian grid of scipy.optimize.brute, enumerated in
row-major order (first axis outermost), as np.argmin ravels it. -/
def grid2 [FloorRing α] (r1 r2 : α × α × α) : List (α × α) :=
  (arange r1).flatMap fun x => (arange r2).map fun y => (x, y)

/-- np.argmin over the raveled objective values: the first pair, in list
order, whose second component is minimal. -/
def argminFirstP {β : Type} : List (β × α) → Option (β × α)
  | [] => none
  | p :: ps =>
    match argminFirstP ps with
    | none => some p
    | some q => some (if q.2 < p.2 then q else p)

/-- The sequential evaluation loop of scipy.optimize.brute over the grid,
threading the strategy object's mutable state; a raised exception at any grid
point aborts the whole search (fail-fast, modeled as none). -/
def runPts {σ β γ : Type} (f : σ → β → σ × Option γ) : σ → List β → σ × Option (List γ)
  | st, [] => (st, some [])
  | st, p :: ps =>
    let s1 := f st p
    match s1.2 with
    | none => (s1.1, none)
    | some v =>
      let s2 := runPts f s1.1 ps
      (s2.1, s2.2.map (fun l => v :: l))

/-- The mutable state of an SMABacktester instance: price series, log-return
column, the two window attributes, the two SMA columns, transaction cost and
the stored result of the last backtest. -/
structure SMAState (α : Type) where
  closes : List α
  rets : List (Option α)
  smaS : ℤ
  smaL : ℤ
  colS : List (Option α)
  colL : List (Option α)
  tc : α
  results : Option (PlainResult α)
deriving DecidableEq, Repr

/-- SMABacktester construction (get_data): log-returns and both SMA columns
are computed once from the Close column; no result is stored yet. -/
def smaInit (logQ : α → α) (closes : List α) (s l : ℤ) (tc : α) : SMAState α :=
  { closes := closes
    rets := logReturns logQ closes
    smaS := s
    smaL := l
    colS := rollingMeanZ s closes
    colL := rollingMeanZ l closes
    tc := tc
    results := none }

/-- SMABacktester.set_parameters: each supplied parameter updates its
attribute and recomputes its own SMA column from Close; an omitted parameter
leaves its attribute and column untouched. -/
def smaSetParams (st : SMAState α) (s? l? : Option ℤ) : SMAState α :=
  let st1 := match s? with
    | some s => { st with smaS := s, colS := rollingMeanZ s st.closes }
    | none => st
  match l? with
  | some l => { st1 with smaL := l, colL := rollingMeanZ l st1.closes }
  | none => st1

/-- The frame of SMABacktester.test_strategy after the first dropna: the rows
where the log-return and both SMA columns are all defined (the raw OHLCV
columns are never NaN). -/
def smaFrame (st : SMAState α) : List (α × α × α) :=
  dropRows3 st.rets st.colS st.colL

/-- SMABacktester.test_strategy: crossover position, shifted strategy return,
second dropna, cumulative columns and the scalar pair; the result frame is
stored on the instance before the final iloc[-1] reads, and the transaction
cost attribute is never consulted. -/
def smaTestStrategy (expF : α → α) (st : SMAState α) :
    SMAState α × Option (BTOutput α) :=
  let frame := smaFrame st
  let pos := crossPositions (frame.map fun r => (r.2.1, r.2.2))
  let ro := runPlain expF (frame.map fun r => r.1) pos
  ({ st with results := some ro.1 }, ro.2)

/-- SMABacktester.update_and_run: set both parameters (int-coerced), run the
backtest, return the negated absolute performance. -/
def smaUpdateAndRun [FloorRing α] (expF : α → α) (st : SMAState α) (p : α × α) :
    SMAState α × Option α :=
  let st' := smaSetParams st (some (pyTrunc p.1)) (some (pyTrunc p.2))
  let ro := smaTestStrategy expF st'
  (ro.1, ro.2.map (fun o => -o.perf))

/-- SMABacktester.optimize_parameters: brute evaluation of update_and_run over
the full grid (finish = None), then one more update_and_run at the winning
point, returning that point with its (re-negated) performance. -/
def smaOptimize [FloorRing α] (expF : α → α) (st : SMAState α)
    (r1 r2 : α × α × α) : SMAState α × Option ((α × α) × α) :=
  let pts := grid2 r1 r2
  let run := runPts (smaUpdateAndRun expF) st pts
  match run.2 with
  | none => (run.1, none)
  | some vals =>
    match argminFirstP (pts.zip vals) with
    | none => (run.1, none)
    | some opt =>
      let fin := smaUpdateAndRun expF run.1 opt.1
      match fin.2 with
      | none => (fin.1, none)
      | some v => (fin.1, some (opt.1, -v))

/-- The backtest of the SMA strategy as a function of the candidate grid point
alone: the int-coerced windows determine both SMA columns from the immutable
Close column, so the frame and hence the whole run are independent of the
optimizer's mutation history. -/
def smaRunAt [FloorRing α] (expF : α → α) (closes : List α)
    (rets : List (Option α)) (p : α × α) : PlainResult α × Option (BTOutput α) :=
  let frame := dropRows3 rets (rollingMeanZ (pyTrunc p.1) closes)
    (rollingMeanZ (pyTrunc p.2) closes)
  runPlain expF (frame.map fun r => r.1)
    (crossPositions (frame.map fun r => (r.2.1, r.2.2)))

/-- The absolute performance of the SMA backtest at a candidate grid point. -/
def smaPointVal [FloorRing α] (expF : α → α) (closes : List α)
    (rets : List (Option α)) (p : α × α) : Option α :=
  (smaRunAt expF closes rets p).2.map BTOutput.perf

/-- Close.ewm(span = s, min_periods = s).mean() with an int span attribute. -/
def emaColZ (s : ℤ) (closes : List α) : List (Option α) :=
  ewmMean s.toNat s.toNat (closes.map some)

/-- The mutable state of an EMABacktester instance. -/
structure EMAState (α : Type) where
  closes : List α
  rets : List (Option α)
  emaS : ℤ
  emaL : ℤ
  colS : List (Option α)
  colL : List (Option α)
  tc : α
  results : Option (CostResult α)
deriving DecidableEq, Repr

/-- EMABacktester construction (get_data). -/
def emaInit (logQ : α → α) (closes : List α) (s l : ℤ) (tc : α) : EMAState α :=
  { closes := closes
    rets := logReturns logQ closes
    emaS := s
    emaL := l
    colS := emaColZ s closes
    colL := emaColZ l closes
    tc := tc
    results := none }

/-- EMABacktester.set_parameters: each supplied span updates its attribute and
recomputes its own EMA column; an omitted span leaves both untouched. -/
def emaSetParams (st : EMAState α) (s? l? : Option ℤ) : EMAState α :=
  let st1 := match s? with
    | some s => { st with emaS := s, colS := emaColZ s st.closes }
    | none => st
  match l? with
  | some l => { st1 with emaL := l, colL := emaColZ l st1.closes }
  | none => st1

/-- The frame of EMABacktester.test_strategy after the first dropna. -/
def emaFrame (st : EMAState α) : List (α × α × α) :=
  dropRows3 st.rets st.colS st.colL

/-- EMABacktester.test_strategy: crossover position, shifted strategy return,
second dropna, trades column, cost subtraction, cumulative columns. -/
def emaTestStrategy (expF : α → α) (st : EMAState α) :
    EMAState α × Option (BTOutput α) :=
  let frame := emaFrame st
  let pos := crossPositions (frame.map fun r => (r.2.1, r.2.2))
  let ro := runCosted expF st.tc (frame.map fun r => r.1) pos
  ({ st with results := some ro.1 }, ro.2)

/-- The mutable state of a MACDBacktester instance: two EMA columns, their
difference (MACD) and the signal line (EMA of MACD with its own span). -/
structure MACDState (α : Type) where
  closes : List α
  rets : List (Option α)
  emaS : ℤ
  emaL : ℤ
  signalMw : ℤ
  colS : List (Option α)
  colL : List (Option α)
  macd : List (Option α)
  signal : List (Option α)
  tc : α
  results : Option (CostResult α)
deriving DecidableEq, Repr

/-- EMA_S - EMA_L, cellwise (NaN propagates through the subtraction). -/
def macdDiff (colS colL : List (Option α)) : List (Option α) :=
  List.zipWith (fun a b => (row2 a b).map fun p => p.1 - p.2) colS colL

/-- MACD.ewm(span = signal_mw, min_periods = signal_mw).mean(). -/
def macdSignalCol (mw : ℤ) (macd : List (Option α)) : List (Option α) :=
  ewmMean mw.toNat mw.toNat macd

/-- MACDBacktester construction (get_data). -/
def macdInit (logQ : α → α) (closes : List α) (s l mw : ℤ) (tc : α) :
    MACDState α :=
  let cS := emaColZ s closes
  let cL := emaColZ l closes
  let m := macdDiff cS cL
  { closes := closes
    rets := logReturns logQ closes
    emaS := s
    emaL := l
    signalMw := mw
    colS := cS
    colL := cL
    macd := m
    signal := macdSignalCol mw m
    tc := tc
    results := none }

/-- MACDBacktester.set_parameters: a supplied EMA span recomputes its own EMA
column and then the MACD and signal columns (both governed by it); a supplied
signal span recomputes only the signal column; omitted parameters leave their
attributes and columns untouched. -/
def macdSetParams (st : MACDState α) (s? l? mw? : Option ℤ) : MACDState α :=
  let st1 := match s? with
    | some s =>
      let cS := emaColZ s st.closes
      let m := macdDiff cS st.colL
      { st with emaS := s, colS := cS, macd := m,
                signal := macdSignalCol st.signalMw m }
    | none => st
  let st2 := match l? with
    | some l =>
      let cL := emaColZ l st1.closes
      let m := macdDiff st1.colS cL
      { st1 with emaL := l, colL := cL, macd := m,
                 signal := macdSignalCol st1.signalMw m }
    | none => st1
  match mw? with
  | some mw => { st2 with signalMw := mw, signal := macdSignalCol mw st2.macd }
  | none => st2

/-- U = np.where(Close.diff() > 0, Close.diff(), 0): the NaN diff at index 0
fails the comparison, so the cell is 0 and the column is never NaN. -/
def upMoves (closes : List α) : List α :=
  (List.range closes.length).map fun i =>
    if i = 0 then 0 else
      if closes.getD i 0 - closes.getD (i - 1) 0 > 0 then
        closes.getD i 0 - closes.getD (i - 1) 0 else 0

/-- D = np.where(Close.diff() < 0, -Close.diff(), 0). -/
def downMoves (closes : List α) : List α :=
  (List.range closes.length).map fun i =>
    if i = 0 then 0 else
      if closes.getD i 0 - closes.getD (i - 1) 0 < 0 then
        -(closes.getD i 0 - closes.getD (i - 1) 0) else 0

/-- RSI = MA_U / (MA_U + MA_D) * 100.  Both rolling means are nonnegative, so
the denominator vanishes iff both vanish, and the pandas division then is
0/0 = NaN (modeled as none); otherwise the cell is defined where both rolling
means are. -/
def rsiOfMeans (mau mad : List (Option α)) : List (Option α) :=
  List.zipWith (fun u d =>
    (row2 u d).bind fun p =>
      if p.1 + p.2 = 0 then none else some (p.1 / (p.1 + p.2) * 100)) mau mad

/-- The mutable state of an RSIBacktester instance.  The upper and lower bands
are plain attributes with no column of their own. -/
structure RSIState (α : Type) where
  closes : List α
  rets : List (Option α)
  periods : ℤ
  upper : α
  lower : α
  u : List α
  d : List α
  mau : List (Option α)
  mad : List (Option α)
  rsi : List (Option α)
  tc : α
  results : Option (CostResult α)
deriving DecidableEq, Repr

/-- RSIBacktester construction (get_data). -/
def rsiInit (logQ : α → α) (closes : List α) (p : ℤ) (upper lower : α)
    (tc : α) : RSIState α :=
  let u := upMoves closes
  let d := downMoves closes
  let mau := rollingMeanOpt p.toNat (u.map some)
  let mad := rollingMeanOpt p.toNat (d.map some)
  { closes := closes
    rets := logReturns logQ closes
    periods := p
    upper := upper
    lower := lower
    u := u
    d := d
    mau := mau
    mad := mad
    rsi := rsiOfMeans mau mad
    tc := tc
    results := none }

/-- RSIBacktester.set_parameters: a supplied periods value recomputes MA_U,
MA_D and RSI from the stored U and D columns; supplied bands only update the
threshold attributes; omitted parameters change nothing. -/
def rsiSetParams (st : RSIState α) (p? : Option ℤ) (up? lo? : Option α) :
    RSIState α :=
  let st1 := match p? with
    | some p =>
      let mau := rollingMeanOpt p.toNat (st.u.map some)
      let mad := rollingMeanOpt p.toNat (st.d.map some)
      { st with periods := p, mau := mau, mad := mad,
                rsi := rsiOfMeans mau mad }
    | none => st
  let st2 := match up? with
    | some up => { st1 with upper := up }
    | none => st1
  match lo? with
  | some lo => { st2 with lower := lo }
  | none => st2

/-- The frame of RSIBacktester.test_strategy after the first dropna: rows
where the log-return, MA_U, MA_D and RSI cells are all defined (U and D are
never NaN); the row carries the log-return and the RSI value. -/
def rsiFrame (st : RSIState α) : List (α × (α × α × α)) :=
  dropRows4 st.rets st.mau st.mad st.rsi

/-- RSIBacktester.test_strategy: threshold position with fillna(0), shifted
strategy return, second dropna, trades column, cost subtraction, cumulative
columns. -/
def rsiTestStrategy (expF : α → α) (st : RSIState α) :
    RSIState α × Option (BTOutput α) :=
  let frame := rsiFrame st
  let pos := rsiPositions st.upper st.lower (frame.map fun r => r.2.2.2)
  let ro := runCosted expF st.tc (frame.map fun r => r.1) pos
  ({ st with results := some ro.1 }, ro.2)

/-- %K = (Close - roll_low) / (roll_high - roll_low) * 100 from the rolling
extrema of the High and Low columns.  When the rolling extrema coincide the
pandas division is 0/0 = NaN for any consistent candle (low <= close <= high
forces the numerator to vanish as well); the none here models that NaN. -/
def kColumn (p : ℤ) (highs lows closes : List α) : List (Option α) :=
  List.zipWith3 (fun rl rh c =>
      (row2 rl rh).bind fun q =>
        if q.2 - q.1 = 0 then none else some ((c - q.1) / (q.2 - q.1) * 100))
    (rollingMinC p.toNat lows) (rollingMaxC p.toNat highs) closes

/-- The mutable state of an SOBacktester instance. -/
structure SOState (α : Type) where
  highs : List α
  lows : List α
  closes : List α
  rets : List (Option α)
  periods : ℤ
  dMw : ℤ
  rollLow : List (Option α)
  rollHigh : List (Option α)
  k : List (Option α)
  d : List (Option α)
  tc : α
  results : Option (CostResult α)
deriving DecidableEq, Repr

/-- SOBacktester construction (get_data). -/
def soInit (logQ : α → α) (highs lows closes : List α) (p dmw : ℤ) (tc : α) :
    SOState α :=
  let k := kColumn p highs lows closes
  { highs := highs
    lows := lows
    closes := closes
    rets := logReturns logQ closes
    periods := p
    dMw := dmw
    rollLow := rollingMinC p.toNat lows
    rollHigh := rollingMaxC p.toNat highs
    k := k
    d := rollingMeanOpt dmw.toNat k
    tc := tc
    results := none }

/-- SOBacktester.set_parameters: a supplied periods value recomputes the
rolling extrema, %K and %D (the latter with the stored D window); a supplied
D window recomputes only %D; omitted parameters change nothing. -/
def soSetParams (st : SOState α) (p? dmw? : Option ℤ) : SOState α :=
  let st1 := match p? with
    | some p =>
      let k := kColumn p st.highs st.lows st.closes
      { st with periods := p, rollLow := rollingMinC p.toNat st.lows,
                rollHigh := rollingMaxC p.toNat st.highs, k := k,
                d := rollingMeanOpt st.dMw.toNat k }
    | none => st
  match dmw? with
  | some dmw => { st1 with dMw := dmw, d := rollingMeanOpt dmw.toNat st1.k }
  | none => st1

/-- The frame of SOBacktester.test_strategy after the first dropna: rows where
the log-return, roll_low, roll_high, %K and %D cells are all defined; the row
carries the log-return, %K and %D. -/
def soFrame (st : SOState α) : List ((α × α) × (α × α × α)) :=
  dropRows5 st.rets st.rollLow st.rollHigh st.k st.d

/-- SOBacktester.test_strategy: %K/%D crossover position, shifted strategy
return, second dropna, trades column, cost subtraction, cumulative columns. -/
def soTestStrategy (expF : α → α) (st : SOState α) :
    SOState α × Option (BTOutput α) :=
  let frame := soFrame st
  let pos := crossPositions (frame.map fun r => (r.2.2.1, r.2.2.2))
  let ro := runCosted expF st.tc (frame.map fun r => r.1.1) pos
  ({ st with results := some ro.1 }, ro.2)

/-! ### Basic facts about the engine's list combinators -/

theorem cumsum_length (xs : List α) : (cumsum xs).length = xs.length := by
  induction xs with
  | nil => rfl
  | cons x xs ih => simp [cumsum, ih]

theorem cumsum_head? (xs : List α) : (cumsum xs).head? = xs.head? := by
  cases xs with
  | nil => rfl
  | cons x xs => rfl

theorem allSome_map_some {β : Type} (l : List β) : allSome (l.map some) = some l := by
  induction l with
  | nil => rfl
  | cons x xs ih => simp [allSome, ih]

theorem allSome_eq_some_iff {β : Type} {l : List (Option β)} {v : List β} :
    allSome l = some v ↔ l = v.map some := by
  induction l generalizing v with
  | nil => cases v <;> simp [allSome]
  | cons x xs ih =>
    cases x with
    | none =>
      simp only [allSome]
      constructor
      · intro h; cases h
      · intro h; cases v <;> simp_all
    | some a =>
      cases v with
      | nil =>
        simp only [allSome, List.map_nil]
        constructor
        · intro h
          cases hx : allSome xs <;> simp [hx] at h
        · intro h; cases h
      | cons b bs =>
        simp only [allSome, List.map_cons]
        constructor
        · intro h
          cases hx : allSome xs <;> simp [hx] at h
          rcases h with ⟨h1, h2⟩
          subst h1
          have := (ih (v := bs)).1 (by rw [hx, h2])
          simp [this]
        · intro h
          simp only [List.cons.injEq] at h
          rcases h with ⟨h1, h2⟩
          have hab : a = b := by injection h1
          subst hab
          rw [(ih (v := bs)).2 h2]
          rfl

theorem reduceOption_length_count {β : Type} (l : List (Option β)) :
    l.reduceOption.length = l.countP (fun x => x.isSome) := by
  induction l with
  | nil => rfl
  | cons x xs ih =>
    cases x with
    | none => simpa [List.reduceOption, List.countP_cons] using ih
    | some a => simpa [List.reduceOption, List.countP_cons] using ih

theorem reduceOption_length_le {β : Type} (l : List (Option β)) :
    l.reduceOption.length ≤ l.length := by
  induction l with
  | nil => exact Nat.le_refl 0
  | cons x xs ih =>
    cases x with
    | none => simpa [List.reduceOption] using Nat.le_succ_of_le ih
    | some a => simpa [List.reduceOption] using Nat.succ_le_succ ih

theorem countP_range_le (D n : ℕ) :
    (List.range n).countP (fun i => decide (D ≤ i)) = n - min n D := by
  induction n with
  | zero => simp
  | succ n ih =>
    rw [List.range_succ, List.countP_append, ih]
    by_cases h : D ≤ n
    · have h1 : min n D = D := Nat.min_eq_right h
      have h2 : min (n + 1) D = D := Nat.min_eq_right (Nat.le_succ_of_le h)
      simp [List.countP_cons, h, h1, h2]
      omega
    · have h1 : min n D = n := Nat.min_eq_left (Nat.le_of_not_le h)
      have h2 : min (n + 1) D = n + 1 := Nat.min_eq_left (by omega)
      simp [List.countP_cons, h, h1, h2]

theorem getElem?_zipWith3 {β γ δ ε : Type} (f : β → γ → δ → ε) (a : List β)
    (b : List γ) (d : List δ) (i : ℕ) :
    (List.zipWith3 f a b d)[i]? =
      (a[i]?.bind fun x => b[i]?.bind fun y => d[i]?.map fun z => f x y z) := by
  induction a generalizing b d i with
  | nil => simp [List.zipWith3]
  | cons x xs ih =>
    cases b with
    | nil => simp [List.zipWith3]
    | cons y ys =>
      cases d with
      | nil => simp [List.zipWith3]
      | cons z zs =>
        cases i with
        | zero => simp [List.zipWith3]
        | succ j => simpa [List.zipWith3] using ih ys zs j

/-! ### The result frame of test_strategy -/

/-- The rows of the result frame, unrolled: given the previous row's position,
each remaining row pairs its log-return and position with the strategy return
prev-position times current log-return. -/
def stratTail (prev : α) : List α → List α → List (RRow α)
  | r :: rs, p :: ps => ⟨r, p, prev * r⟩ :: stratTail p rs ps
  | _, _ => []

theorem stratTail_aux (prev : α) (rs ps : List α) :
    (List.zipWith (fun (rp : α × α) s => s.map fun sv => RRow.mk rp.1 rp.2 sv)
      (rs.zip ps)
      (List.zipWith (fun p r => Option.map (fun v => v * r) p)
        ((prev :: ps).map some) rs)).reduceOption = stratTail prev rs ps := by
  induction rs generalizing prev ps with
  | nil => simp [stratTail]
  | cons r rs ih =>
    cases ps with
    | nil => simp [stratTail]
    | cons p ps =>
      simpa [stratTail, List.reduceOption] using ih p ps

theorem resultRows_nil_left (pos : List α) : resultRows [] pos = [] := by
  simp [resultRows, rawStrategy]

theorem resultRows_nil_right (rets : List α) : resultRows rets [] = [] := by
  cases rets <;> simp [resultRows, rawStrategy]

theorem resultRows_cons (r p : α) (rs ps : List α) :
    resultRows (r :: rs) (p :: ps) = stratTail p rs ps := by
  have h := stratTail_aux p rs ps
  simpa [resultRows, rawStrategy, List.reduceOption] using h

theorem stratTail_length (prev : α) (rs ps : List α) :
    (stratTail prev rs ps).length = min rs.length ps.length := by
  induction rs generalizing prev ps with
  | nil => simp [stratTail]
  | cons r rs ih =>
    cases ps with
    | nil => simp [stratTail]
    | cons p ps => simp [stratTail, ih p ps, Nat.succ_min_succ]

theorem resultRows_length (rets pos : List α) (h : rets.length = pos.length) :
    (resultRows rets pos).length = rets.length - 1 := by
  cases rets with
  | nil => simp [resultRows_nil_left]
  | cons r rs =>
    cases pos with
    | nil => exact absurd h (by simp)
    | cons p ps =>
      rw [resultRows_cons, stratTail_length]
      simp at h
      simp [h]

theorem stratTail_getElem? (rs : List α) :
    ∀ (ps : List α) (prev : α) (i : ℕ),
      (stratTail prev rs ps)[i]? =
        (rs[i]?.bind fun r => ps[i]?.map fun p =>
          RRow.mk r p ((if i = 0 then prev else ps.getD (i - 1) 0) * r)) := by
  induction rs with
  | nil => intro ps prev i; simp [stratTail]
  | cons r rs ih =>
    intro ps prev i
    cases ps with
    | nil => simp [stratTail]
    | cons p ps =>
      cases i with
      | zero => simp [stratTail]
      | succ j =>
        have h := ih ps p j
        simp only [stratTail, List.getElem?_cons_succ]
        rw [h]
        cases j with
        | zero => simp
        | succ k => simp [List.getD]

theorem resultRows_getElem? (rets pos : List α) (i : ℕ)
    (h1 : i + 1 < rets.length) (h2 : i + 1 < pos.length) :
    (resultRows rets pos)[i]? =
      some ⟨rets.getD (i + 1) 0, pos.getD (i + 1) 0,
        pos.getD i 0 * rets.getD (i + 1) 0⟩ := by
  cases rets with
  | nil => simp at h1
  | cons r0 rs =>
    cases pos with
    | nil => simp at h2
    | cons p0 ps =>
      rw [resultRows_cons, stratTail_getElem?]
      have hr : i < rs.length := by simpa using Nat.lt_of_succ_lt_succ h1
      have hp : i < ps.length := by simpa using Nat.lt_of_succ_lt_succ h2
      rw [List.getElem?_eq_getElem hr, List.getElem?_eq_getElem hp]
      simp only [Option.bind_eq_bind, Option.some_bind, Option.map_some]
      cases i with
      | zero =>
        simp [List.getD_cons_succ, List.getD_cons_zero, List.getD,
          List.getElem?_eq_getElem hr, List.getElem?_eq_getElem hp]
      | succ j =>
        simp [List.getD_cons_succ, List.getD,
          List.getElem?_eq_getElem hr, List.getElem?_eq_getElem hp,
          List.getElem?_eq_getElem (Nat.lt_of_succ_lt hp)]

theorem tradesList_getElem?_zero (p : α) (ps : List α) :
    (tradesList (p :: ps))[0]? = some 0 := by
  simp [tradesList]

theorem tradesList_getElem?_succ (ps : List α) (i : ℕ) :
    (tradesList ps)[i + 1]? =
      (ps[i]?.bind fun a => ps[i + 1]?.map fun b => |b - a|) := by
  cases ps with
  | nil => simp [tradesList]
  | cons p tl =>
    simp only [tradesList, List.getElem?_cons_succ, List.getElem?_zipWith]
    cases h : (p :: tl)[i]? <;> cases h2 : tl[i]? <;> simp [h, h2]

theorem tradesList_length (ps : List α) : (tradesList ps).length = ps.length := by
  cases ps with
  | nil => rfl
  | cons p tl => simp [tradesList]

theorem zipWith_left_of_length_le {β : Type} (l1 : List α) (l2 : List β)
    (h : l1.length ≤ l2.length) : List.zipWith (fun s _ => s) l1 l2 = l1 := by
  induction l1 generalizing l2 with
  | nil => rfl
  | cons x xs ih =>
    cases l2 with
    | nil => simp at h
    | cons y ys => simpa using ih ys (by simpa using h)

/-- With zero transaction cost the net strategy column is exactly the raw
shifted strategy column: no cost term is subtracted anywhere. -/
theorem netStrategy_zero (rows : List (RRow α)) :
    netStrategy 0 rows = rows.map RRow.strat := by
  have h : (rows.map RRow.strat).length ≤ (tradesList (rows.map RRow.pos)).length := by
    simp [tradesList_length]
  calc netStrategy 0 rows
      = List.zipWith (fun s _ => s) (rows.map RRow.strat)
          (tradesList (rows.map RRow.pos)) := by
        simp [netStrategy]
    _ = rows.map RRow.strat := zipWith_left_of_length_le _ _ h

/-- The net strategy return at result index i, written with the indices of the
restricted frame (position at t-1 times log-return at t, minus the absolute
position change times tc, the trade indicator of the first result row being
filled with 0). -/
theorem netStrategy_getElem? (tc : α) (rets pos : List α) (i : ℕ)
    (h1 : i + 1 < rets.length) (h2 : i + 1 < pos.length) :
    (netStrategy tc (resultRows rets pos))[i]? =
      some (pos.getD i 0 * rets.getD (i + 1) 0 -
        (if i = 0 then 0 else |pos.getD (i + 1) 0 - pos.getD i 0|) * tc) := by
  have hrow := resultRows_getElem? rets pos i h1 h2
  rw [netStrategy, List.getElem?_zipWith, List.getElem?_map, hrow]
  cases i with
  | zero =>
    rw [show (((resultRows rets pos).map RRow.pos) : List α) =
      (resultRows rets pos).map RRow.pos from rfl]
    have hne : (resultRows rets pos).map RRow.pos ≠ [] := by
      intro hempty
      have := congrArg List.length hempty
      simp at this
      have h0 := resultRows_getElem? rets pos 0 h1 h2
      rw [this] at h0
      simp at h0
    obtain ⟨q, qs, hq⟩ := List.exists_cons_of_ne_nil hne
    rw [hq, tradesList_getElem?_zero]
    simp
  | succ j =>
    have hrowj := resultRows_getElem? rets pos j (Nat.lt_of_succ_lt h1)
      (Nat.lt_of_succ_lt h2)
    rw [tradesList_getElem?_succ, List.getElem?_map, List.getElem?_map,
      hrowj, hrow]
    simp

/-! ### Claim C1 -/

/-- C1: the transaction-cost model of the backtest.  For the costed engine
(shared verbatim by the EMA, MACD, RSI and SO variants) the net strategy
return at result index i is position(t-1) times log-return(t) minus the trade
indicator times tc, the trade indicator of the first result row being 0, and
with tc = 0 the net column is exactly the shifted-position times log-return
column.  The SMA variant, however, never consults its transaction cost: its
test_strategy output and stored result are identical for any two cost values,
which contradicts the claim for every positive tc at which a trade occurs
(the class documents tc as proportional transaction costs per trade, so this
is a slip in SMABacktester.test_strategy, not in the claim). -/
theorem c1_strategy_return_cost_model :
    (∀ (expF logQ : α → α) (closes : List α) (s l : ℤ) (tc tc' : α),
      (smaTestStrategy expF (smaInit logQ closes s l tc)).2 =
        (smaTestStrategy expF (smaInit logQ closes s l tc')).2 ∧
      ((smaTestStrategy expF (smaInit logQ closes s l tc)).1).results =
        ((smaTestStrategy expF (smaInit logQ closes s l tc')).1).results) ∧
    (∀ (tc : α) (rets pos : List α) (i : ℕ),
      i + 1 < rets.length → i + 1 < pos.length →
      (netStrategy tc (resultRows rets pos))[i]? =
        some (pos.getD i 0 * rets.getD (i + 1) 0 -
          (if i = 0 then 0 else |pos.getD (i + 1) 0 - pos.getD i 0|) * tc)) ∧
    (∀ rows : List (RRow α), netStrategy 0 rows = rows.map RRow.strat) ∧
    (∀ (expF : α → α) (st : EMAState α),
      (emaTestStrategy expF st).1.results =
        some (runCosted expF st.tc ((emaFrame st).map fun r => r.1)
          (crossPositions ((emaFrame st).map fun r => (r.2.1, r.2.2)))).1) := by
  refine ⟨fun expF logQ closes s l tc tc' => ⟨rfl, rfl⟩, ?_, netStrategy_zero, ?_⟩
  · exact fun tc rets pos i h1 h2 => netStrategy_getElem? tc rets pos i h1 h2
  · intro expF st
    rfl

/-- Witness for C1: on the concrete restricted frame with log-returns
[1, 2, 3] and positions [1, -1, 1] and tc = 1, the net strategy return at
result index 1 is (-1) * 3 - |1 - (-1)| * 1 = -5. -/
theorem c1_strategy_return_cost_model_witness :
    (1 + 1 < ([(1 : ℚ), 2, 3] : List ℚ).length ∧
      1 + 1 < ([(1 : ℚ), -1, 1] : List ℚ).length) ∧
    (netStrategy (1 : ℚ) (resultRows ([1, 2, 3] : List ℚ) [1, -1, 1]))[1]? =
      some ((-5 : ℚ)) := by
  refine ⟨⟨by decide, by decide⟩, ?_⟩
  have h := (c1_strategy_return_cost_model (α := ℚ)).2.1 1 [1, 2, 3] [1, -1, 1] 1
    (by decide) (by decide)
  rw [h]
  norm_num [List.getD]

/-! ### Claim C2 -/

/-- Counterexample to C2: with bands upper = 70, lower = 30 and RSI column
[80, 50], the indicator crosses above the upper band at index 0 and never
falls below the lower band again, so the claim requires the position to hold
at -1 through the end of the series; the code's fillna(0) instead produces a
flat position 0 at index 1. -/
theorem c2_threshold_counterexample :
    (rsiPositions (70 : ℚ) 30 [80, 50]).getD 1 0 = 0 ∧ ((0 : ℚ)) ≠ -1 := by
  constructor
  · rfl
  · decide

/-- C2 (amended): the threshold position of the RSI family is pointwise in the
indicator: -1 where RSI exceeds the upper band, +1 where it is below the lower
band, and flat 0 everywhere else (no carry-forward of the previous state; a
crossing persists only while the indicator stays beyond its band).  The RSI
backtest applies exactly this rule to the RSI values of the restricted
frame. -/
theorem c2_threshold_positions :
    (∀ (upper lower : α) (rsi : List α) (i : ℕ), i < rsi.length →
      (rsiPositions upper lower rsi).getD i 0 =
        if rsi.getD i 0 < lower then 1
        else if rsi.getD i 0 > upper then -1 else 0) ∧
    (∀ (expF : α → α) (st : RSIState α),
      (rsiTestStrategy expF st).1.results =
        some (runCosted expF st.tc ((rsiFrame st).map fun r => r.1)
          (rsiPositions st.upper st.lower
            ((rsiFrame st).map fun r => r.2.2.2))).1) := by
  constructor
  · intro upper lower rsi i hi
    have hmap : rsiPositions upper lower rsi =
        rsi.map (fun r =>
          if r < lower then (1 : α) else if r > upper then -1 else 0) := by
      unfold rsiPositions rsiPosStep2 rsiPosStep1
      rw [List.zipWith_map_right, List.zipWith_same, List.map_map]
      refine List.map_congr_left (fun r _ => ?_)
      by_cases h1 : r < lower
      · simp [h1]
      · by_cases h2 : r > upper <;> simp [Function.comp, h1, h2]
    simp [hmap, List.getD, List.getElem?_map, List.getElem?_eq_getElem hi]
  · intro expF st
    rfl

/-- Witness for C2 (amended): at index 0 of the RSI column [80, 50] with bands
(70, 30) the position is -1, matching the pointwise rule. -/
theorem c2_threshold_positions_witness :
    0 < ([(80 : ℚ), 50] : List ℚ).length ∧
    (rsiPositions (70 : ℚ) 30 [80, 50]).getD 0 0 =
      (if ([(80 : ℚ), 50] : List ℚ).getD 0 0 < 30 then 1
       else if ([(80 : ℚ), 50] : List ℚ).getD 0 0 > 70 then -1 else 0) :=
  ⟨by decide, (c2_threshold_positions (α := ℚ)).1 70 30 [80, 50] 0 (by decide)⟩

/-! ### Claim C3 -/

/-- Counterexample to C3: on the price series [1, 2, 4] with SMA windows
(1, 1), the first row of the result frame carries the log-return log(4/2), so
the cumulative buy-and-hold series is [exp(log 2)] = [2]: its value at the
first valid index is 2, not 1.0 (pandas cumsum is inclusive, so the running
sum at the first valid index is that index's own return, not an empty sum). -/
theorem c3_cumulative_counterexample :
    ((smaTestStrategy Real.exp
        (smaInit Real.log ([1, 2, 4] : List ℝ) 1 1 0)).1.results).map
      PlainResult.creturns = some [(2 : ℝ)] ∧ ((2 : ℝ)) ≠ 1 := by
  constructor
  · show (some (runPlain Real.exp _ _).1).map PlainResult.creturns = _
    norm_num [smaTestStrategy, smaInit, smaFrame, dropRows3, dropCells3,
      rollingMeanZ, rollingMeanOpt, windowEnd, allSome, logReturns,
      List.range_succ, runPlain, crossPositions, resultRows, rawStrategy,
      stratTail, cumsum, List.reduceOption, List.getD]
    exact Real.exp_log (by norm_num)
  · norm_num

/-- C3 (amended): the cumulative buy-and-hold and strategy series are exp of
the inclusive running sums of the log-returns and of the net strategy returns
of the result frame; since the running sum at the first valid index is that
index's own return (pandas cumsum is inclusive, not exclusive), the series
start at exp of the first period's return, which equals 1.0 exactly when that
return is zero. -/
theorem c3_cumulative_series :
    (∀ (expF : α → α) (tc : α) (rets pos : List α),
      (runCosted expF tc rets pos).1.creturns =
        (cumsum ((resultRows rets pos).map RRow.ret)).map expF ∧
      (runCosted expF tc rets pos).1.cstrategy =
        (cumsum (netStrategy tc (resultRows rets pos))).map expF) ∧
    (∀ xs : List α, (cumsum xs).head? = xs.head?) ∧
    (∀ expF : α → α, StrictMono expF → expF 0 = 1 →
      ∀ (xs : List α) (r0 : α), xs.head? = some r0 →
        (((cumsum xs).map expF).head? = some 1 ↔ r0 = 0)) := by
  refine ⟨fun expF tc rets pos => ⟨rfl, rfl⟩, cumsum_head?, ?_⟩
  intro expF hmono h1 xs r0 h0
  rw [List.head?_map, cumsum_head?, h0]
  simp only [Option.map_some', Option.some.injEq]
  constructor
  · intro h
    have := hmono.injective (h.trans h1.symm)
    exact this
  · intro h
    rw [h, h1]

/-- Witness for C3 (amended): with the strictly monotone map x + 1 sending 0
to 1 and the column [2, 3], the head of the mapped cumulative sums is 3, and
it equals 1 iff the first return 2 is zero (it is not). -/
theorem c3_cumulative_series_witness :
    StrictMono (fun x : ℚ => x + 1) ∧ ((0 : ℚ) + 1 = 1) ∧
    ([(2 : ℚ), 3] : List ℚ).head? = some 2 ∧
    (((cumsum ([(2 : ℚ), 3] : List ℚ)).map (fun x : ℚ => x + 1)).head? = some 1 ↔
      (2 : ℚ) = 0) := by
  refine ⟨fun a b h => by simpa using h, by norm_num, rfl, ?_⟩
  exact (c3_cumulative_series (α := ℚ)).2.2 (fun x => x + 1)
    (fun a b h => by simpa using h) (by norm_num) [2, 3] 2 rfl

/-! ### Claim C5 -/

theorem netStrategy_length (tc : α) (rows : List (RRow α)) :
    (netStrategy tc rows).length = rows.length := by
  simp [netStrategy, List.length_zipWith, tradesList_length]

theorem length_zipWith3 {β γ δ ε : Type} (f : β → γ → δ → ε) (a : List β)
    (b : List γ) (d : List δ) :
    (List.zipWith3 f a b d).length = min (min a.length b.length) d.length := by
  induction a generalizing b d with
  | nil => simp [List.zipWith3]
  | cons x xs ih =>
    cases b with
    | nil => simp [List.zipWith3]
    | cons y ys =>
      cases d with
      | nil => simp [List.zipWith3]
      | cons z zs => simp [List.zipWith3, ih ys zs, Nat.succ_min_succ]

theorem dropRows3_length_le (a b c : List (Option α)) :
    (dropRows3 a b c).length ≤ a.length := by
  calc (dropRows3 a b c).length
      ≤ (dropCells3 a b c).length := reduceOption_length_le _
    _ ≤ a.length := by
        rw [dropCells3, length_zipWith3]
        omega

/-- The costed backtest tail raises (iloc[-1] on an empty frame) iff the
result frame after the second dropna is empty. -/
theorem runCosted_out_none_iff (expF : α → α) (tc : α) (rets pos : List α) :
    (runCosted expF tc rets pos).2 = none ↔ resultRows rets pos = [] := by
  cases hrows : resultRows rets pos with
  | nil => simp [runCosted, hrows, netStrategy, tradesList, cumsum]
  | cons r rs =>
    have hne1 : (cumsum (netStrategy tc (r :: rs))).map expF ≠ [] := by
      intro h
      have := congrArg List.length h
      simp [cumsum_length, netStrategy_length] at this
    have hne2 : (cumsum ((r :: rs).map RRow.ret)).map expF ≠ [] := by
      intro h
      have := congrArg List.length h
      simp [cumsum_length] at this
    rcases hl1 : ((cumsum (netStrategy tc (r :: rs))).map expF).getLast? with _ | v1
    · exact absurd (List.getLast?_eq_none_iff.mp hl1) hne1
    rcases hl2 : ((cumsum ((r :: rs).map RRow.ret)).map expF).getLast? with _ | v2
    · exact absurd (List.getLast?_eq_none_iff.mp hl2) hne2
    have hout : (runCosted expF tc rets pos).2 = some ⟨v1, v1 - v2⟩ := by
      simp only [runCosted, hrows]
      rw [hl1, hl2]
    simp [hout, hrows]

/-- The SMA backtest tail raises iff the result frame is empty. -/
theorem runPlain_out_none_iff (expF : α → α) (rets pos : List α) :
    (runPlain expF rets pos).2 = none ↔ resultRows rets pos = [] := by
  cases hrows : resultRows rets pos with
  | nil => simp [runPlain, hrows, cumsum]
  | cons r rs =>
    have hne1 : (cumsum ((r :: rs).map RRow.strat)).map expF ≠ [] := by
      intro h
      have := congrArg List.length h
      simp [cumsum_length] at this
    have hne2 : (cumsum ((r :: rs).map RRow.ret)).map expF ≠ [] := by
      intro h
      have := congrArg List.length h
      simp [cumsum_length] at this
    rcases hl1 : ((cumsum ((r :: rs).map RRow.strat)).map expF).getLast? with _ | v1
    · exact absurd (List.getLast?_eq_none_iff.mp hl1) hne1
    rcases hl2 : ((cumsum ((r :: rs).map RRow.ret)).map expF).getLast? with _ | v2
    · exact absurd (List.getLast?_eq_none_iff.mp hl2) hne2
    have hout : (runPlain expF rets pos).2 = some ⟨v1, v1 - v2⟩ := by
      simp only [runPlain, hrows]
      rw [hl1, hl2]
    simp [hout, hrows]

theorem resultRows_eq_nil_iff (rets pos : List α) (h : rets.length = pos.length) :
    resultRows rets pos = [] ↔ rets.length < 2 := by
  rw [← List.length_eq_zero, resultRows_length rets pos h]
  omega

/-- C5: the backtest fails, with the error surfaced to the caller, exactly
when the restriction of the data to the rows where the log-return and every
governing indicator column are defined retains fewer than 2 periods (so that
no strategy return survives the shift); shown for the SMA and RSI variants,
and the failure propagates un-recovered through the optimizer (on a price
series with fewer than 2 rows every grid point fails and the whole grid
search aborts with the error).  In the Python source the failure surfaces as
the uncaught IndexError of cstrategy.iloc[-1] on the empty frame, the
spec's name for this failure mode being InsufficientDataError. -/
theorem c5_insufficient_data [FloorRing α] :
    (∀ (expF : α → α) (st : SMAState α),
      (smaTestStrategy expF st).2 = none ↔ (smaFrame st).length < 2) ∧
    (∀ (expF : α → α) (st : RSIState α),
      (rsiTestStrategy expF st).2 = none ↔ (rsiFrame st).length < 2) ∧
    (∀ (expF logQ : α → α) (closes : List α) (s l : ℤ) (tc : α)
      (r1 r2 : α × α × α),
      closes.length < 2 → grid2 r1 r2 ≠ [] →
      (smaOptimize expF (smaInit logQ closes s l tc) r1 r2).2 = none) := by
  have hsma : ∀ (expF : α → α) (st : SMAState α),
      (smaTestStrategy expF st).2 = none ↔ (smaFrame st).length < 2 := by
    intro expF st
    have hlen : ((smaFrame st).map fun r => r.1).length =
        (crossPositions ((smaFrame st).map fun r => (r.2.1, r.2.2))).length := by
      simp [crossPositions]
    calc (smaTestStrategy expF st).2 = none
        ↔ resultRows ((smaFrame st).map fun r => r.1)
            (crossPositions ((smaFrame st).map fun r => (r.2.1, r.2.2))) = [] :=
          runPlain_out_none_iff _ _ _
      _ ↔ ((smaFrame st).map fun r => r.1).length < 2 :=
          resultRows_eq_nil_iff _ _ hlen
      _ ↔ (smaFrame st).length < 2 := by simp
  refine ⟨hsma, ?_, ?_⟩
  · intro expF st
    have hlen : ((rsiFrame st).map fun r => r.1).length =
        (rsiPositions st.upper st.lower
          ((rsiFrame st).map fun r => r.2.2.2)).length := by
      simp [rsiPositions, rsiPosStep2, rsiPosStep1, List.length_zipWith]
    calc (rsiTestStrategy expF st).2 = none
        ↔ resultRows ((rsiFrame st).map fun r => r.1)
            (rsiPositions st.upper st.lower
              ((rsiFrame st).map fun r => r.2.2.2)) = [] :=
          runCosted_out_none_iff _ _ _ _
      _ ↔ ((rsiFrame st).map fun r => r.1).length < 2 :=
          resultRows_eq_nil_iff _ _ hlen
      _ ↔ (rsiFrame st).length < 2 := by simp
  · intro expF logQ closes s l tc r1 r2 hshort hgrid
    obtain ⟨p, ps, hp⟩ := List.exists_cons_of_ne_nil hgrid
    have hfail : (smaUpdateAndRun expF (smaInit logQ closes s l tc) p).2 = none := by
      have hframe : (smaFrame (smaSetParams (smaInit logQ closes s l tc)
          (some (pyTrunc p.1)) (some (pyTrunc p.2)))).length < 2 := by
        have hle : (smaFrame (smaSetParams (smaInit logQ closes s l tc)
            (some (pyTrunc p.1)) (some (pyTrunc p.2)))).length ≤
            (logReturns logQ closes).length := by
          exact dropRows3_length_le _ _ _
        have : (logReturns logQ closes).length = closes.length := by
          simp [logReturns]
        omega
      have := (hsma expF (smaSetParams (smaInit logQ closes s l tc)
        (some (pyTrunc p.1)) (some (pyTrunc p.2)))).mpr hframe
      simp [smaUpdateAndRun, this]
    simp only [smaOptimize, hp, runPts, hfail]

/-- Witness for C5: on the single-price series [5] every restriction is
shorter than 2 periods, the backtest fails, and the grid search over the
nonempty grid (1,3,1) x (1,3,1) propagates the failure. -/
theorem c5_insufficient_data_witness :
    ([(5 : ℚ)] : List ℚ).length < 2 ∧
    grid2 ((1 : ℚ), 3, 1) ((1 : ℚ), 3, 1) ≠ [] ∧
    (smaOptimize id (smaInit id ([(5 : ℚ)] : List ℚ) 1 2 0)
      ((1 : ℚ), 3, 1) ((1 : ℚ), 3, 1)).2 = none := by
  have har : arange ((1 : ℚ), 3, 1) = [1, 2] := by
    rw [arange]
    norm_num
    norm_num [List.range_succ, show Int.toNat 2 = 2 from rfl]
  have hgrid : grid2 ((1 : ℚ), 3, 1) ((1 : ℚ), 3, 1) ≠ [] := by
    simp [grid2, har]
  exact ⟨by decide, hgrid, (c5_insufficient_data (α := ℚ)).2.2 id id [5] 1 2 0
    (1, 3, 1) (1, 3, 1) (by decide) hgrid⟩

/-! ### Claim C6 -/

theorem getD_range_map {β : Type} (n : ℕ) (f : ℕ → β) (d : β) (i : ℕ)
    (hi : i < n) : ((List.range n).map f).getD i d = f i := by
  rw [List.getD_eq_getElem _ _ (by simpa using hi), List.getElem_map,
    List.getElem_range]

/-- Over the always-defined Close column, the rolling mean with window w is
undefined exactly on the first w - 1 indices. -/
theorem rollingMean_undefined_iff (w : ℕ) (hw : 1 ≤ w) (closes : List α)
    (i : ℕ) (hi : i < closes.length) :
    ((rollingMeanOpt w (closes.map some)).getD i none = none ↔ i < w - 1) := by
  unfold rollingMeanOpt
  rw [List.length_map, getD_range_map _ _ _ _ hi]
  have hw0 : ¬(w = 0) := by omega
  rw [if_neg hw0]
  unfold windowEnd
  by_cases hwin : w ≤ i + 1
  · rw [if_pos hwin, ← List.map_drop, ← List.map_take, allSome_map_some]
    simp only [Option.map_some']
    exact iff_of_false (by simp) (by omega)
  · rw [if_neg hwin, Option.map_none']
    exact iff_of_true rfl (by omega)

theorem logReturns_undefined_iff (logQ : α → α) (closes : List α) (i : ℕ)
    (hi : i < closes.length) :
    ((logReturns logQ closes).getD i none = none ↔ i = 0) := by
  unfold logReturns
  rw [getD_range_map _ _ _ _ hi]
  by_cases h : i = 0
  · simp [h]
  · simp [h]

theorem zipWith3_map_same {β γ δ ε ζ : Type} (k : β → γ → δ → ε)
    (f : ζ → β) (g : ζ → γ) (h : ζ → δ) (l : List ζ) :
    List.zipWith3 k (l.map f) (l.map g) (l.map h) =
      l.map (fun x => k (f x) (g x) (h x)) := by
  induction l with
  | nil => rfl
  | cons x xs ih => simp [List.zipWith3, ih]

theorem row3_isSome {β γ δ : Type} (x : Option β) (y : Option γ) (z : Option δ) :
    (row3 x y z).isSome = (x.isSome && y.isSome && z.isSome) := by
  cases x <;> cases y <;> cases z <;> rfl

/-- A cell inside bounds, read through getElem?. -/
theorem getElem?_eq_some_getD {β : Type} (l : List β) (d : β) (i : ℕ)
    (hi : i < l.length) : l[i]? = some (l.getD i d) := by
  rw [List.getElem?_eq_getElem hi, List.getD_eq_getElem l d hi]

theorem dropCells3_eq_range_map (a b c : List (Option α)) (n : ℕ)
    (ha : a.length = n) (hb : b.length = n) (hc : c.length = n) :
    dropCells3 a b c = (List.range n).map (fun i =>
      row3 (a.getD i none) (b.getD i none) (c.getD i none)) := by
  refine List.ext_getElem? (fun i => ?_)
  rw [dropCells3, getElem?_zipWith3, List.getElem?_map]
  by_cases hi : i < n
  · rw [List.getElem?_range hi, getElem?_eq_some_getD a none i (by omega),
      getElem?_eq_some_getD b none i (by omega),
      getElem?_eq_some_getD c none i (by omega)]
    rfl
  · rw [List.getElem?_eq_none (l := a) (by omega),
      List.getElem?_eq_none (l := List.range n) (by simpa using hi)]
    rfl

/-- The number of rows of the restricted SMA frame: the log-return column is
undefined exactly at index 0 and each SMA column exactly on its first
window - 1 indices, so dropna removes the prefix of length
max(1, SMA_S - 1, SMA_L - 1) (clamped to the series length). -/
theorem smaFrame_length (logQ : α → α) (closes : List α) (s l : ℤ) (tc : α)
    (hs : 1 ≤ s) (hl : 1 ≤ l) :
    (smaFrame (smaInit logQ closes s l tc)).length =
      closes.length -
        min closes.length (max 1 (max (s.toNat - 1) (l.toNat - 1))) := by
  have ha : (logReturns logQ closes).length = closes.length := by
    simp [logReturns]
  have hb : (rollingMeanZ s closes).length = closes.length := by
    simp [rollingMeanZ, rollingMeanOpt]
  have hc : (rollingMeanZ l closes).length = closes.length := by
    simp [rollingMeanZ, rollingMeanOpt]
  have hframe : smaFrame (smaInit logQ closes s l tc) =
      dropRows3 (logReturns logQ closes) (rollingMeanZ s closes)
        (rollingMeanZ l closes) := rfl
  rw [hframe, dropRows3,
    dropCells3_eq_range_map _ _ _ closes.length ha hb hc,
    reduceOption_length_count, List.countP_map]
  refine (List.countP_congr fun i hmem => ?_).trans
    (countP_range_le (max 1 (max (s.toNat - 1) (l.toNat - 1))) closes.length)
  have hi : i < closes.length := List.mem_range.mp hmem
  have hs1 : 1 ≤ s.toNat := by omega
  have hl1 : 1 ≤ l.toNat := by omega
  have e1 := logReturns_undefined_iff logQ closes i hi
  have e2 : (rollingMeanZ s closes).getD i none = none ↔ i < s.toNat - 1 :=
    rollingMean_undefined_iff s.toNat hs1 closes i hi
  have e3 : (rollingMeanZ l closes).getD i none = none ↔ i < l.toNat - 1 :=
    rollingMean_undefined_iff l.toNat hl1 closes i hi
  simp only [Function.comp, row3_isSome, Bool.and_eq_true,
    Option.isSome_iff_ne_none, ne_eq, decide_eq_true_eq]
  constructor
  · rintro ⟨⟨g1, g2⟩, g3⟩
    have k1 : ¬ i = 0 := fun h => g1 (e1.mpr h)
    have k2 : ¬ i < s.toNat - 1 := fun h => g2 (e2.mpr h)
    have k3 : ¬ i < l.toNat - 1 := fun h => g3 (e3.mpr h)
    omega
  · intro hge
    refine ⟨⟨fun h => ?_, fun h => ?_⟩, fun h => ?_⟩
    · have := e1.mp h; omega
    · have := e2.mp h; omega
    · have := e3.mp h; omega

/-- Counterexample to C6: on the price series [1, 2, 4] with both SMA windows
equal to 1 the two SMA columns are defined everywhere (warm-up window - 1 = 0),
but the log-return column is still undefined at index 0, so the position
series has 2 defined entries while the claim's formula
len(series) - max(indicator warm-ups) predicts 3 - 0 = 3. -/
theorem c6_warmup_counterexample :
    (crossPositions ((smaFrame (smaInit (id : ℚ → ℚ) [1, 2, 4] 1 1 0)).map
      (fun r => (r.2.1, r.2.2)))).length = 2 ∧
    ([(1 : ℚ), 2, 4] : List ℚ).length -
      max (Int.toNat 1 - 1) (Int.toNat 1 - 1) = 3 ∧
    (2 : ℕ) ≠ 3 := by
  refine ⟨by decide, by decide, by decide⟩

/-- C6 (amended): each rolling-mean indicator over the Close column is
undefined exactly on its first window - 1 indices, and the number of defined
entries of the SMA position series equals the series length minus
max(1, SMA_S - 1, SMA_L - 1) clamped to the series length: the one-period
warm-up of the log-return column also bounds the restriction, so the claimed
len - max(indicator warm-ups) only holds when some window is at least 2 (and
the series is long enough). -/
theorem c6_warmup_lengths :
    (∀ w : ℕ, 1 ≤ w → ∀ (closes : List α) (i : ℕ), i < closes.length →
      ((rollingMeanOpt w (closes.map some)).getD i none = none ↔ i < w - 1)) ∧
    (∀ (logQ : α → α) (closes : List α) (s l : ℤ) (tc : α), 1 ≤ s → 1 ≤ l →
      (crossPositions ((smaFrame (smaInit logQ closes s l tc)).map
        (fun r => (r.2.1, r.2.2)))).length =
      closes.length -
        min closes.length (max 1 (max (s.toNat - 1) (l.toNat - 1)))) := by
  refine ⟨fun w hw closes i hi => rollingMean_undefined_iff w hw closes i hi, ?_⟩
  intro logQ closes s l tc hs hl
  have hpos : (crossPositions ((smaFrame (smaInit logQ closes s l tc)).map
      (fun r => (r.2.1, r.2.2)))).length =
      (smaFrame (smaInit logQ closes s l tc)).length := by
    simp [crossPositions]
  rw [hpos, smaFrame_length logQ closes s l tc hs hl]

/-- Witness for C6 (amended): SMA(3) over a 10-price series is undefined at
index 1 (1 < 3 - 1), and with windows (3, 5) the position series keeps
10 - 4 = 6 entries. -/
theorem c6_warmup_lengths_witness :
    (1 ≤ 3 ∧ 1 < ([(100 : ℚ), 101, 102, 101, 100, 99, 98, 99, 100, 101] :
        List ℚ).length ∧
      ((rollingMeanOpt 3 (([(100 : ℚ), 101, 102, 101, 100, 99, 98, 99, 100,
        101] : List ℚ).map some)).getD 1 none = none ↔ 1 < 3 - 1)) ∧
    ((1 : ℤ) ≤ 3 ∧ (1 : ℤ) ≤ 5 ∧
      (crossPositions ((smaFrame (smaInit (id : ℚ → ℚ)
        [100, 101, 102, 101, 100, 99, 98, 99, 100, 101] 3 5 0)).map
        (fun r => (r.2.1, r.2.2)))).length =
      ([(100 : ℚ), 101, 102, 101, 100, 99, 98, 99, 100, 101] :
        List ℚ).length - min ([(100 : ℚ), 101, 102, 101, 100, 99, 98, 99, 100,
        101] : List ℚ).length
        (max 1 (max (Int.toNat 3 - 1) (Int.toNat 5 - 1)))) := by
  constructor
  · exact ⟨by decide, by decide,
      (c6_warmup_lengths (α := ℚ)).1 3 (by decide) _ 1 (by decide)⟩
  · exact ⟨by decide, by decide,
      (c6_warmup_lengths (α := ℚ)).2 id _ 3 5 0 (by decide) (by decide)⟩

/-! ### Claim C7 -/

/-- C7: set_parameters with a value supplied for only one axis recomputes
exactly the indicator columns governed by that axis (always from the immutable
Close column, or the stored upstream column) and leaves the other axis's
attribute and indicator column, the price and return columns, and the stored
result untouched, for all five variants with two or more parameter axes
present in the sources (SMA, EMA, MACD, RSI, SO). -/
theorem c7_partial_reparameterization :
    (∀ (st : SMAState α) (s : ℤ),
      (smaSetParams st (some s) none).colL = st.colL ∧
      (smaSetParams st (some s) none).smaL = st.smaL ∧
      (smaSetParams st (some s) none).closes = st.closes ∧
      (smaSetParams st (some s) none).rets = st.rets ∧
      (smaSetParams st (some s) none).results = st.results ∧
      (smaSetParams st (some s) none).colS = rollingMeanZ s st.closes ∧
      (smaSetParams st (some s) none).smaS = s) ∧
    (∀ (st : SMAState α) (l : ℤ),
      (smaSetParams st none (some l)).colS = st.colS ∧
      (smaSetParams st none (some l)).smaS = st.smaS ∧
      (smaSetParams st none (some l)).closes = st.closes ∧
      (smaSetParams st none (some l)).rets = st.rets ∧
      (smaSetParams st none (some l)).results = st.results ∧
      (smaSetParams st none (some l)).colL = rollingMeanZ l st.closes ∧
      (smaSetParams st none (some l)).smaL = l) ∧
    (∀ (st : EMAState α) (s : ℤ),
      (emaSetParams st (some s) none).colL = st.colL ∧
      (emaSetParams st (some s) none).emaL = st.emaL ∧
      (emaSetParams st (some s) none).closes = st.closes ∧
      (emaSetParams st (some s) none).rets = st.rets ∧
      (emaSetParams st (some s) none).results = st.results ∧
      (emaSetParams st (some s) none).colS = emaColZ s st.closes ∧
      (emaSetParams st (some s) none).emaS = s) ∧
    (∀ (st : EMAState α) (l : ℤ),
      (emaSetParams st none (some l)).colS = st.colS ∧
      (emaSetParams st none (some l)).emaS = st.emaS ∧
      (emaSetParams st none (some l)).closes = st.closes ∧
      (emaSetParams st none (some l)).rets = st.rets ∧
      (emaSetParams st none (some l)).results = st.results ∧
      (emaSetParams st none (some l)).colL = emaColZ l st.closes ∧
      (emaSetParams st none (some l)).emaL = l) ∧
    (∀ (st : MACDState α) (s : ℤ),
      (macdSetParams st (some s) none none).colL = st.colL ∧
      (macdSetParams st (some s) none none).emaL = st.emaL ∧
      (macdSetParams st (some s) none none).signalMw = st.signalMw ∧
      (macdSetParams st (some s) none none).closes = st.closes ∧
      (macdSetParams st (some s) none none).rets = st.rets ∧
      (macdSetParams st (some s) none none).colS = emaColZ s st.closes ∧
      (macdSetParams st (some s) none none).macd =
        macdDiff (emaColZ s st.closes) st.colL ∧
      (macdSetParams st (some s) none none).signal =
        macdSignalCol st.signalMw (macdDiff (emaColZ s st.closes) st.colL)) ∧
    (∀ (st : MACDState α) (l : ℤ),
      (macdSetParams st none (some l) none).colS = st.colS ∧
      (macdSetParams st none (some l) none).emaS = st.emaS ∧
      (macdSetParams st none (some l) none).signalMw = st.signalMw ∧
      (macdSetParams st none (some l) none).closes = st.closes ∧
      (macdSetParams st none (some l) none).rets = st.rets ∧
      (macdSetParams st none (some l) none).colL = emaColZ l st.closes ∧
      (macdSetParams st none (some l) none).macd =
        macdDiff st.colS (emaColZ l st.closes)) ∧
    (∀ (st : MACDState α) (mw : ℤ),
      (macdSetParams st none none (some mw)).colS = st.colS ∧
      (macdSetParams st none none (some mw)).colL = st.colL ∧
      (macdSetParams st none none (some mw)).macd = st.macd ∧
      (macdSetParams st none none (some mw)).emaS = st.emaS ∧
      (macdSetParams st none none (some mw)).emaL = st.emaL ∧
      (macdSetParams st none none (some mw)).closes = st.closes ∧
      (macdSetParams st none none (some mw)).rets = st.rets ∧
      (macdSetParams st none none (some mw)).signal =
        macdSignalCol mw st.macd) ∧
    (∀ (st : RSIState α) (p : ℤ),
      (rsiSetParams st (some p) none none).upper = st.upper ∧
      (rsiSetParams st (some p) none none).lower = st.lower ∧
      (rsiSetParams st (some p) none none).closes = st.closes ∧
      (rsiSetParams st (some p) none none).rets = st.rets ∧
      (rsiSetParams st (some p) none none).u = st.u ∧
      (rsiSetParams st (some p) none none).d = st.d ∧
      (rsiSetParams st (some p) none none).mau =
        rollingMeanOpt p.toNat (st.u.map some) ∧
      (rsiSetParams st (some p) none none).rsi =
        rsiOfMeans (rollingMeanOpt p.toNat (st.u.map some))
          (rollingMeanOpt p.toNat (st.d.map some))) ∧
    (∀ (st : RSIState α) (up : α),
      (rsiSetParams st none (some up) none).mau = st.mau ∧
      (rsiSetParams st none (some up) none).mad = st.mad ∧
      (rsiSetParams st none (some up) none).rsi = st.rsi ∧
      (rsiSetParams st none (some up) none).periods = st.periods ∧
      (rsiSetParams st none (some up) none).lower = st.lower ∧
      (rsiSetParams st none (some up) none).closes = st.closes ∧
      (rsiSetParams st none (some up) none).rets = st.rets ∧
      (rsiSetParams st none (some up) none).upper = up) ∧
    (∀ (st : RSIState α) (lo : α),
      (rsiSetParams st none none (some lo)).mau = st.mau ∧
      (rsiSetParams st none none (some lo)).mad = st.mad ∧
      (rsiSetParams st none none (some lo)).rsi = st.rsi ∧
      (rsiSetParams st none none (some lo)).periods = st.periods ∧
      (rsiSetParams st none none (some lo)).upper = st.upper ∧
      (rsiSetParams st none none (some lo)).closes = st.closes ∧
      (rsiSetParams st none none (some lo)).rets = st.rets ∧
      (rsiSetParams st none none (some lo)).lower = lo) ∧
    (∀ (st : SOState α) (p : ℤ),
      (soSetParams st (some p) none).dMw = st.dMw ∧
      (soSetParams st (some p) none).highs = st.highs ∧
      (soSetParams st (some p) none).lows = st.lows ∧
      (soSetParams st (some p) none).closes = st.closes ∧
      (soSetParams st (some p) none).rets = st.rets ∧
      (soSetParams st (some p) none).k =
        kColumn p st.highs st.lows st.closes ∧
      (soSetParams st (some p) none).d =
        rollingMeanOpt st.dMw.toNat (kColumn p st.highs st.lows st.closes)) ∧
    (∀ (st : SOState α) (dmw : ℤ),
      (soSetParams st none (some dmw)).rollLow = st.rollLow ∧
      (soSetParams st none (some dmw)).rollHigh = st.rollHigh ∧
      (soSetParams st none (some dmw)).k = st.k ∧
      (soSetParams st none (some dmw)).periods = st.periods ∧
      (soSetParams st none (some dmw)).highs = st.highs ∧
      (soSetParams st none (some dmw)).lows = st.lows ∧
      (soSetParams st none (some dmw)).closes = st.closes ∧
      (soSetParams st none (some dmw)).rets = st.rets ∧
      (soSetParams st none (some dmw)).d =
        rollingMeanOpt dmw.toNat st.k) :=
  ⟨fun st s => ⟨rfl, rfl, rfl, rfl, rfl, rfl, rfl⟩,
   fun st l => ⟨rfl, rfl, rfl, rfl, rfl, rfl, rfl⟩,
   fun st s => ⟨rfl, rfl, rfl, rfl, rfl, rfl, rfl⟩,
   fun st l => ⟨rfl, rfl, rfl, rfl, rfl, rfl, rfl⟩,
   fun st s => ⟨rfl, rfl, rfl, rfl, rfl, rfl, rfl, rfl⟩,
   fun st l => ⟨rfl, rfl, rfl, rfl, rfl, rfl, rfl⟩,
   fun st mw => ⟨rfl, rfl, rfl, rfl, rfl, rfl, rfl, rfl⟩,
   fun st p => ⟨rfl, rfl, rfl, rfl, rfl, rfl, rfl, rfl⟩,
   fun st up => ⟨rfl, rfl, rfl, rfl, rfl, rfl, rfl, rfl⟩,
   fun st lo => ⟨rfl, rfl, rfl, rfl, rfl, rfl, rfl, rfl⟩,
   fun st p => ⟨rfl, rfl, rfl, rfl, rfl, rfl, rfl⟩,
   fun st dmw => ⟨rfl, rfl, rfl, rfl, rfl, rfl, rfl, rfl, rfl⟩⟩

/-! ### Claim C8 -/

/-- C8: test_strategy is idempotent and touches nothing but the stored
result: running it leaves the price, return and indicator columns, the
parameter attributes and the transaction cost unchanged, and running it a
second time on the resulting state returns the same output and the same
state; shown for the SMA and SO variants (the claim's cited sources). -/
theorem c8_idempotent_backtest :
    (∀ (expF : α → α) (st : SMAState α),
      (smaTestStrategy expF (smaTestStrategy expF st).1).2 =
        (smaTestStrategy expF st).2 ∧
      (smaTestStrategy expF (smaTestStrategy expF st).1).1 =
        (smaTestStrategy expF st).1 ∧
      (smaTestStrategy expF st).1.closes = st.closes ∧
      (smaTestStrategy expF st).1.rets = st.rets ∧
      (smaTestStrategy expF st).1.smaS = st.smaS ∧
      (smaTestStrategy expF st).1.smaL = st.smaL ∧
      (smaTestStrategy expF st).1.colS = st.colS ∧
      (smaTestStrategy expF st).1.colL = st.colL ∧
      (smaTestStrategy expF st).1.tc = st.tc) ∧
    (∀ (expF : α → α) (st : SOState α),
      (soTestStrategy expF (soTestStrategy expF st).1).2 =
        (soTestStrategy expF st).2 ∧
      (soTestStrategy expF (soTestStrategy expF st).1).1 =
        (soTestStrategy expF st).1 ∧
      (soTestStrategy expF st).1.highs = st.highs ∧
      (soTestStrategy expF st).1.lows = st.lows ∧
      (soTestStrategy expF st).1.closes = st.closes ∧
      (soTestStrategy expF st).1.rets = st.rets ∧
      (soTestStrategy expF st).1.periods = st.periods ∧
      (soTestStrategy expF st).1.dMw = st.dMw ∧
      (soTestStrategy expF st).1.rollLow = st.rollLow ∧
      (soTestStrategy expF st).1.rollHigh = st.rollHigh ∧
      (soTestStrategy expF st).1.k = st.k ∧
      (soTestStrategy expF st).1.d = st.d ∧
      (soTestStrategy expF st).1.tc = st.tc) :=
  ⟨fun expF st => ⟨rfl, rfl, rfl, rfl, rfl, rfl, rfl, rfl, rfl⟩,
   fun expF st => ⟨rfl, rfl, rfl, rfl, rfl, rfl, rfl, rfl, rfl, rfl, rfl, rfl,
     rfl⟩⟩

/-! ### Claim C10 -/

theorem slice_sum_zero (u : List α) (a w : ℕ)
    (hz : ∀ j, a ≤ j → j < a + w → j < u.length → u.getD j 0 = 0) :
    ((u.drop a).take w).sum = 0 := by
  refine List.sum_eq_zero (fun x hx => ?_)
  obtain ⟨k, hk, hval⟩ := List.mem_iff_getElem.mp hx
  have hkw : k < w := by
    have := hk
    rw [List.length_take] at this
    omega
  have hku : a + k < u.length := by
    have := hk
    rw [List.length_take, List.length_drop] at this
    omega
  have : ((u.drop a).take w)[k] = u[a + k] := by
    rw [List.getElem_take, List.getElem_drop]
  rw [← hval, this, ← List.getD_eq_getElem u 0 hku]
  exact hz (a + k) (by omega) (by omega) hku

theorem upMoves_length (closes : List α) :
    (upMoves closes).length = closes.length := by
  simp [upMoves]

theorem downMoves_length (closes : List α) :
    (downMoves closes).length = closes.length := by
  simp [downMoves]

theorem upMoves_getD_eq_zero (closes : List α) (j : ℕ) (hj : j < closes.length)
    (h : closes.getD j 0 - closes.getD (j - 1) 0 = 0) :
    (upMoves closes).getD j 0 = 0 := by
  unfold upMoves
  rw [getD_range_map _ _ _ _ hj]
  by_cases h0 : j = 0
  · simp [h0]
  · rw [if_neg h0, if_neg (by rw [h]; exact lt_irrefl 0)]

theorem downMoves_getD_eq_zero (closes : List α) (j : ℕ)
    (hj : j < closes.length)
    (h : closes.getD j 0 - closes.getD (j - 1) 0 = 0) :
    (downMoves closes).getD j 0 = 0 := by
  unfold downMoves
  rw [getD_range_map _ _ _ _ hj]
  by_cases h0 : j = 0
  · simp [h0]
  · rw [if_neg h0, if_neg (by rw [h]; exact lt_irrefl 0)]

/-- The rolling mean over a window of all-zero cells is defined and zero. -/
theorem rollingMean_zero_window (w : ℕ) (hw : 1 ≤ w) (u : List α) (i : ℕ)
    (hi : i < u.length) (hwin : w ≤ i + 1)
    (hz : ∀ j, i + 1 - w ≤ j → j ≤ i → j < u.length → u.getD j 0 = 0) :
    (rollingMeanOpt w (u.map some)).getD i none = some 0 := by
  unfold rollingMeanOpt
  rw [List.length_map, getD_range_map _ _ _ _ hi, if_neg (by omega),
    windowEnd, if_pos hwin, ← List.map_drop, ← List.map_take, allSome_map_some,
    Option.map_some']
  have hsum : ((u.drop (i + 1 - w)).take w).sum = 0 :=
    slice_sum_zero u (i + 1 - w) w (fun j ha hb hc => hz j ha (by omega) hc)
  rw [hsum, zero_div]

theorem row3_none_mid {β γ δ : Type} (x : Option β) (z : Option δ) :
    row3 x (none : Option γ) z = none := by
  cases x <;> cases z <;> rfl

theorem row3_none_right {β γ δ : Type} (x : Option β) (y : Option γ) :
    row3 x y (none : Option δ) = none := by
  cases x <;> cases y <;> rfl

theorem row2_none_right {β γ : Type} (x : Option β) :
    row2 x (none : Option γ) = none := by
  cases x <;> rfl

/-- C10: degenerate windows make the indicator cell undefined, not an error.
For the RSI family, a window over which the price never moves makes both
rolling means zero, so RSI = 0/0 is NaN there (modeled as none) and the row is
dropped from the pre-dropna cell list of the restricted frame.  For the
stochastic-oscillator family, when the rolling high equals the rolling low
over a window the denominator of %K vanishes; for consistent candles
(low <= close <= high) the numerator vanishes too, the pandas division is
0/0 = NaN (modeled as none), and the row is likewise dropped. -/
theorem c10_degenerate_windows :
    (∀ (logQ : α → α) (closes : List α) (p : ℤ) (up lo tc : α) (i : ℕ),
      1 ≤ p → p.toNat ≤ i + 1 → i < closes.length →
      (∀ j : ℕ, i ≤ j + p.toNat → j ≤ i → closes.getD j 0 = closes.getD i 0) →
      (rsiInit logQ closes p up lo tc).rsi.getD i none = none ∧
      (dropCells4 (rsiInit logQ closes p up lo tc).rets
        (rsiInit logQ closes p up lo tc).mau
        (rsiInit logQ closes p up lo tc).mad
        (rsiInit logQ closes p up lo tc).rsi).getD i none = none) ∧
    (∀ (logQ : α → α) (highs lows closes : List α) (p dmw : ℤ) (tc : α)
      (i : ℕ) (v : α),
      (∀ j : ℕ, j < closes.length →
        lows.getD j 0 ≤ closes.getD j 0 ∧ closes.getD j 0 ≤ highs.getD j 0) →
      i < closes.length →
      (soInit logQ highs lows closes p dmw tc).rollLow.getD i none = some v →
      (soInit logQ highs lows closes p dmw tc).rollHigh.getD i none = some v →
      (soInit logQ highs lows closes p dmw tc).k.getD i none = none ∧
      (dropCells5 (soInit logQ highs lows closes p dmw tc).rets
        (soInit logQ highs lows closes p dmw tc).rollLow
        (soInit logQ highs lows closes p dmw tc).rollHigh
        (soInit logQ highs lows closes p dmw tc).k
        (soInit logQ highs lows closes p dmw tc).d).getD i none = none) := by
  constructor
  · intro logQ closes p up lo tc i hp hwin hi hconst
    have hdiff : ∀ j : ℕ, i + 1 - p.toNat ≤ j → j ≤ i → j < closes.length →
        closes.getD j 0 - closes.getD (j - 1) 0 = 0 := by
      intro j hja hjb hjc
      by_cases h0 : j = 0
      · subst h0
        simp
      · have e1 : closes.getD j 0 = closes.getD i 0 :=
          hconst j (by omega) hjb
        have e2 : closes.getD (j - 1) 0 = closes.getD i 0 :=
          hconst (j - 1) (by omega) (by omega)
        rw [e1, e2, sub_self]
    have hw1 : 1 ≤ p.toNat := by omega
    have hmau : (rollingMeanOpt p.toNat ((upMoves closes).map some)).getD i
        none = some 0 := by
      refine rollingMean_zero_window p.toNat hw1 (upMoves closes) i
        (by rw [upMoves_length]; exact hi) hwin (fun j hja hjb hjc => ?_)
      exact upMoves_getD_eq_zero closes j (by rwa [upMoves_length] at hjc)
        (hdiff j hja hjb (by rwa [upMoves_length] at hjc))
    have hmad : (rollingMeanOpt p.toNat ((downMoves closes).map some)).getD i
        none = some 0 := by
      refine rollingMean_zero_window p.toNat hw1 (downMoves closes) i
        (by rw [downMoves_length]; exact hi) hwin (fun j hja hjb hjc => ?_)
      exact downMoves_getD_eq_zero closes j (by rwa [downMoves_length] at hjc)
        (hdiff j hja hjb (by rwa [downMoves_length] at hjc))
    have hmau_len : i < (rollingMeanOpt p.toNat
        ((upMoves closes).map some)).length := by
      simpa [rollingMeanOpt, upMoves_length] using hi
    have hmad_len : i < (rollingMeanOpt p.toNat
        ((downMoves closes).map some)).length := by
      simpa [rollingMeanOpt, downMoves_length] using hi
    have h4 : (rollingMeanOpt p.toNat ((upMoves closes).map some))[i]? =
        some (some 0) := by
      rw [getElem?_eq_some_getD _ none i hmau_len, hmau]
    have h5 : (rollingMeanOpt p.toNat ((downMoves closes).map some))[i]? =
        some (some 0) := by
      rw [getElem?_eq_some_getD _ none i hmad_len, hmad]
    have hrsi : (rsiOfMeans (rollingMeanOpt p.toNat ((upMoves closes).map some))
        (rollingMeanOpt p.toNat ((downMoves closes).map some))).getD i none =
        none := by
      rw [List.getD_eq_getElem?_getD, rsiOfMeans, List.getElem?_zipWith, h4, h5]
      simp [row2]
    have hrsi_len : i < (rsiOfMeans
        (rollingMeanOpt p.toNat ((upMoves closes).map some))
        (rollingMeanOpt p.toNat ((downMoves closes).map some))).length := by
      rw [rsiOfMeans, List.length_zipWith]
      omega
    have h6 : (rsiOfMeans (rollingMeanOpt p.toNat ((upMoves closes).map some))
        (rollingMeanOpt p.toNat ((downMoves closes).map some)))[i]? =
        some none := by
      rw [getElem?_eq_some_getD _ none i hrsi_len, hrsi]
    have hrets_len : i < (logReturns logQ closes).length := by
      simpa [logReturns] using hi
    have h7 : (logReturns logQ closes)[i]? =
        some ((logReturns logQ closes).getD i none) :=
      getElem?_eq_some_getD _ none i hrets_len
    refine ⟨hrsi, ?_⟩
    show (dropCells4 (logReturns logQ closes)
      (rollingMeanOpt p.toNat ((upMoves closes).map some))
      (rollingMeanOpt p.toNat ((downMoves closes).map some))
      (rsiOfMeans (rollingMeanOpt p.toNat ((upMoves closes).map some))
        (rollingMeanOpt p.toNat ((downMoves closes).map some)))).getD i none =
      none
    rw [List.getD_eq_getElem?_getD, dropCells4, List.getElem?_zipWith,
      getElem?_zipWith3, h4, h5, h6, h7]
    simp [row3_none_right, row2_none_right]
  · intro logQ highs lows closes p dmw tc i v hcandle hi hlo hhi
    have hlo' : (rollingMinC p.toNat lows).getD i none = some v := hlo
    have hhi' : (rollingMaxC p.toNat highs).getD i none = some v := hhi
    have hlowlen : i < lows.length := by
      by_contra hcon
      have hlen : (rollingMinC p.toNat lows).length ≤ i := by
        simp only [rollingMinC, List.length_map, List.length_range]
        omega
      rw [List.getD_eq_getElem?_getD, List.getElem?_eq_none hlen] at hlo'
      exact Option.noConfusion hlo'
    have hhighlen : i < highs.length := by
      by_contra hcon
      have hlen : (rollingMaxC p.toNat highs).length ≤ i := by
        simp only [rollingMaxC, List.length_map, List.length_range]
        omega
      rw [List.getD_eq_getElem?_getD, List.getElem?_eq_none hlen] at hhi'
      exact Option.noConfusion hhi'
    have h1 : (rollingMinC p.toNat lows)[i]? = some (some v) := by
      rw [getElem?_eq_some_getD _ none i
        (by simp only [rollingMinC, List.length_map, List.length_range]; omega),
        hlo']
    have h2 : (rollingMaxC p.toNat highs)[i]? = some (some v) := by
      rw [getElem?_eq_some_getD _ none i
        (by simp only [rollingMaxC, List.length_map, List.length_range]; omega),
        hhi']
    have hk : (kColumn p highs lows closes).getD i none = none := by
      rw [List.getD_eq_getElem?_getD, kColumn, getElem?_zipWith3, h1, h2,
        List.getElem?_eq_getElem hi]
      simp [row2]
    have hk_len : i < (kColumn p highs lows closes).length := by
      rw [kColumn, length_zipWith3]
      simp only [rollingMinC, rollingMaxC, List.length_map, List.length_range]
      omega
    have hk? : (kColumn p highs lows closes)[i]? = some none := by
      rw [getElem?_eq_some_getD _ none i hk_len, hk]
    refine ⟨hk, ?_⟩
    show (dropCells5 (logReturns logQ closes) (rollingMinC p.toNat lows)
      (rollingMaxC p.toNat highs) (kColumn p highs lows closes)
      (rollingMeanOpt dmw.toNat (kColumn p highs lows closes))).getD i none =
      none
    rw [List.getD_eq_getElem?_getD, dropCells5, List.getElem?_zipWith,
      getElem?_zipWith3, hk?]
    rcases hout : (List.zipWith (fun x y => row2 x y) (logReturns logQ closes)
        (rollingMinC p.toNat lows))[i]? with _ | w1 <;>
      rcases h3 : (rollingMaxC p.toNat highs)[i]? with _ | w3 <;>
      rcases h8 : (rollingMeanOpt dmw.toNat
        (kColumn p highs lows closes))[i]? with _ | w8 <;>
      simp [row3_none_mid, row2_none_right]

/-- Witness for C10: on the flat price series [1, 1, 1] the RSI cell at index
2 (window 2) is undefined and its row is dropped; on the flat candle series
high = low = close = [5, 5] the %K cell at index 0 (window 1) is undefined and
its row is dropped. -/
theorem c10_degenerate_windows_witness :
    ((rsiInit (id : ℚ → ℚ) [1, 1, 1] 2 70 30 0).rsi.getD 2 none = none ∧
      (dropCells4 (rsiInit (id : ℚ → ℚ) [1, 1, 1] 2 70 30 0).rets
        (rsiInit (id : ℚ → ℚ) [1, 1, 1] 2 70 30 0).mau
        (rsiInit (id : ℚ → ℚ) [1, 1, 1] 2 70 30 0).mad
        (rsiInit (id : ℚ → ℚ) [1, 1, 1] 2 70 30 0).rsi).getD 2 none = none) ∧
    ((soInit (id : ℚ → ℚ) [5, 5] [5, 5] [5, 5] 1 1 0).k.getD 0 none = none ∧
      (dropCells5 (soInit (id : ℚ → ℚ) [5, 5] [5, 5] [5, 5] 1 1 0).rets
        (soInit (id : ℚ → ℚ) [5, 5] [5, 5] [5, 5] 1 1 0).rollLow
        (soInit (id : ℚ → ℚ) [5, 5] [5, 5] [5, 5] 1 1 0).rollHigh
        (soInit (id : ℚ → ℚ) [5, 5] [5, 5] [5, 5] 1 1 0).k
        (soInit (id : ℚ → ℚ) [5, 5] [5, 5] [5, 5] 1 1 0).d).getD 0 none =
        none) := by
  constructor
  · exact (c10_degenerate_windows (α := ℚ)).1 id [1, 1, 1] 2 70 30 0 2
      (by decide) (by decide) (by decide)
      (fun j h1 h2 => by interval_cases j <;> rfl)
  · exact (c10_degenerate_windows (α := ℚ)).2 id [5, 5] [5, 5] [5, 5] 1 1 0 0 5
      (fun j hj => by
        have hj2 : j < 2 := by simpa using hj
        interval_cases j <;> exact ⟨le_refl _, le_refl _⟩)
      (by decide) (by decide) (by decide)

/-! ### Claims C4 and C9: the grid search -/

theorem argminFirstP_eq_none_iff {β : Type} (l : List (β × α)) :
    argminFirstP l = none ↔ l = [] := by
  cases l with
  | nil => simp [argminFirstP]
  | cons p ps =>
    simp only [argminFirstP]
    cases argminFirstP ps <;> simp

/-- np.argmin correctness: the selected pair is in the list, its value is
minimal, and every pair strictly before it has a strictly larger value (ties
resolve to the first occurrence). -/
theorem argminFirstP_spec {β : Type} (l : List (β × α)) (r : β × α)
    (h : argminFirstP l = some r) :
    r ∈ l ∧ (∀ q ∈ l, r.2 ≤ q.2) ∧
      ∃ pre post, l = pre ++ r :: post ∧ ∀ q ∈ pre, r.2 < q.2 := by
  induction l generalizing r with
  | nil => cases h
  | cons p ps ih =>
    simp only [argminFirstP] at h
    cases hps : argminFirstP ps with
    | none =>
      rw [hps] at h
      have hr : r = p := by injection h with h'; exact h'.symm
      have hempty : ps = [] := (argminFirstP_eq_none_iff ps).mp hps
      subst hr
      subst hempty
      exact ⟨List.mem_singleton_self _, by simp, ⟨[], [], rfl, by simp⟩⟩
    | some q =>
      rw [hps] at h
      obtain ⟨hmem, hmin, pre, post, hdecomp, hpre⟩ := ih q hps
      by_cases hlt : q.2 < p.2
      · have hr : r = q := by
          injection h with h'
          rw [← h', if_pos hlt]
        subst hr
        refine ⟨List.mem_cons_of_mem _ hmem, ?_, _ :: pre, post, by
          rw [hdecomp]; rfl, ?_⟩
        · intro x hx
          rcases List.mem_cons.mp hx with hx | hx
          · exact hx ▸ le_of_lt hlt
          · exact hmin x hx
        · intro x hx
          rcases List.mem_cons.mp hx with hx | hx
          · exact hx ▸ hlt
          · exact hpre x hx
      · have hr : r = p := by
          injection h with h'
          rw [← h', if_neg hlt]
        subst hr
        refine ⟨List.mem_cons_self _ _, ?_, [], _, rfl, by simp⟩
        intro x hx
        rcases List.mem_cons.mp hx with hx | hx
        · exact hx ▸ le_refl _
        · exact le_trans (not_lt.mp hlt) (hmin x hx)

/-- The evaluation loop of brute: when every per-point evaluation is a pure
function g of the point (given an invariant on the threaded state), the
collected values are exactly the pointwise evaluations and the invariant is
preserved. -/
theorem runPts_spec {σ β γ : Type} (f : σ → β → σ × Option γ) (P : σ → Prop)
    (g : β → Option γ)
    (hf : ∀ s p, P s → (f s p).2 = g p ∧ P (f s p).1) :
    ∀ (pts : List β) (st : σ), P st →
      (runPts f st pts).2 = allSome (pts.map g) ∧ P (runPts f st pts).1 := by
  intro pts
  induction pts with
  | nil => intro st hP; exact ⟨rfl, hP⟩
  | cons p ps ih =>
    intro st hP
    obtain ⟨h1, h2⟩ := hf st p hP
    simp only [runPts, List.map_cons, allSome]
    rw [h1]
    cases hg : g p with
    | none => exact ⟨rfl, h2⟩
    | some v =>
      obtain ⟨ih1, ih2⟩ := ih (f st p).1 h2
      rw [ih1]
      exact ⟨rfl, ih2⟩

theorem pyTrunc_intCast [FloorRing α] (n : ℤ) : pyTrunc ((n : α)) = n := by
  unfold pyTrunc
  split
  · exact Int.floor_intCast n
  · exact Int.ceil_intCast n

/-- update_and_run, characterized: it re-parameterizes both windows to the
int-coerced grid point, recomputes both SMA columns from the unchanged Close
column, stores the backtest result, and returns the negated absolute
performance, a value depending only on the Close and return columns and the
grid point. -/
theorem smaUpdateAndRun_spec [FloorRing α] (expF : α → α) (st : SMAState α)
    (p : α × α) :
    (smaUpdateAndRun expF st p).2 =
      (smaPointVal expF st.closes st.rets p).map (fun x => -x) ∧
    (smaUpdateAndRun expF st p).1.closes = st.closes ∧
    (smaUpdateAndRun expF st p).1.rets = st.rets ∧
    (smaUpdateAndRun expF st p).1.tc = st.tc ∧
    (smaUpdateAndRun expF st p).1.smaS = pyTrunc p.1 ∧
    (smaUpdateAndRun expF st p).1.smaL = pyTrunc p.2 ∧
    (smaUpdateAndRun expF st p).1.colS =
      rollingMeanZ (pyTrunc p.1) st.closes ∧
    (smaUpdateAndRun expF st p).1.colL =
      rollingMeanZ (pyTrunc p.2) st.closes ∧
    (smaUpdateAndRun expF st p).1.results =
      some (smaRunAt expF st.closes st.rets p).1 := by
  refine ⟨?_, rfl, rfl, rfl, rfl, rfl, rfl, rfl, rfl⟩
  show ((smaRunAt expF st.closes st.rets p).2).map (fun o => -o.perf) =
    (((smaRunAt expF st.closes st.rets p).2).map BTOutput.perf).map
      (fun x => -x)
  cases (smaRunAt expF st.closes st.rets p).2 <;> rfl

/-- Destructuring a successful optimize_parameters run into its three stages:
the grid evaluation pass, the argmin selection and the final re-run. -/
theorem smaOptimize_success [FloorRing α] (expF : α → α) (st : SMAState α)
    (r1 r2 : α × α × α) (opt : α × α) (best : α)
    (h : (smaOptimize expF st r1 r2).2 = some (opt, best)) :
    ∃ vals op v,
      (runPts (smaUpdateAndRun expF) st (grid2 r1 r2)).2 = some vals ∧
      argminFirstP ((grid2 r1 r2).zip vals) = some op ∧
      (smaUpdateAndRun expF
        (runPts (smaUpdateAndRun expF) st (grid2 r1 r2)).1 op.1).2 = some v ∧
      opt = op.1 ∧ best = -v ∧
      (smaOptimize expF st r1 r2).1 =
        (smaUpdateAndRun expF
          (runPts (smaUpdateAndRun expF) st (grid2 r1 r2)).1 op.1).1 := by
  rcases hr : (runPts (smaUpdateAndRun expF) st (grid2 r1 r2)).2 with _ | vals
  · simp [smaOptimize, hr] at h
  · rcases hm : argminFirstP ((grid2 r1 r2).zip vals) with _ | op
    · simp [smaOptimize, hr, hm] at h
    · rcases hfin : (smaUpdateAndRun expF
        (runPts (smaUpdateAndRun expF) st (grid2 r1 r2)).1 op.1).2 with _ | v
      · simp [smaOptimize, hr, hm, hfin] at h
      · simp only [smaOptimize, hr, hm, hfin, Option.some.injEq,
          Prod.mk.injEq] at h
        exact ⟨vals, op, v, rfl, hm, hfin, h.1.symm, h.2.symm, by
          simp only [smaOptimize, hr, hm, hfin]⟩

/-- Full analysis of a successful optimize_parameters run: the evaluation
pass records exactly the pointwise (state-independent) objective values, the
argmin selects a pair from the zipped grid, the returned performance is the
selected point's absolute performance, and the final state is the instance
re-parameterized and re-run at the selected point. -/
theorem smaOptimize_full [FloorRing α] (expF : α → α) (st : SMAState α)
    (r1 r2 : α × α × α) (opt : α × α) (best : α)
    (h : (smaOptimize expF st r1 r2).2 = some (opt, best)) :
    ∃ vals op,
      ((grid2 r1 r2).map (fun p =>
        (smaPointVal expF st.closes st.rets p).map (fun x => -x)) =
        vals.map some) ∧
      argminFirstP ((grid2 r1 r2).zip vals) = some op ∧
      opt = op.1 ∧ best = -op.2 ∧
      smaPointVal expF st.closes st.rets opt = some best ∧
      ((smaOptimize expF st r1 r2).1.closes = st.closes ∧
        (smaOptimize expF st r1 r2).1.rets = st.rets ∧
        (smaOptimize expF st r1 r2).1.tc = st.tc ∧
        (smaOptimize expF st r1 r2).1.smaS = pyTrunc opt.1 ∧
        (smaOptimize expF st r1 r2).1.smaL = pyTrunc opt.2 ∧
        (smaOptimize expF st r1 r2).1.colS =
          rollingMeanZ (pyTrunc opt.1) st.closes ∧
        (smaOptimize expF st r1 r2).1.colL =
          rollingMeanZ (pyTrunc opt.2) st.closes ∧
        (smaOptimize expF st r1 r2).1.results =
          some (smaRunAt expF st.closes st.rets opt).1) := by
  obtain ⟨vals, op, v, hr, hm, hfin, hopt, hbest, hstate⟩ :=
    smaOptimize_success expF st r1 r2 opt best h
  have hP : ∀ (s : SMAState α) (p : α × α),
      (s.closes = st.closes ∧ s.rets = st.rets ∧ s.tc = st.tc) →
      (smaUpdateAndRun expF s p).2 =
        (smaPointVal expF st.closes st.rets p).map (fun x => -x) ∧
      ((smaUpdateAndRun expF s p).1.closes = st.closes ∧
        (smaUpdateAndRun expF s p).1.rets = st.rets ∧
        (smaUpdateAndRun expF s p).1.tc = st.tc) := by
    intro s p hps
    obtain ⟨h1, h2, h3⟩ := hps
    obtain ⟨e1, e2, e3, e4, _⟩ := smaUpdateAndRun_spec expF s p
    exact ⟨by rw [e1, h1, h2], by rw [e2, h1], by rw [e3, h2], by rw [e4, h3]⟩
  have hrun := runPts_spec (smaUpdateAndRun expF)
    (fun s => s.closes = st.closes ∧ s.rets = st.rets ∧ s.tc = st.tc)
    (fun p => (smaPointVal expF st.closes st.rets p).map (fun x => -x))
    hP (grid2 r1 r2) st ⟨rfl, rfl, rfl⟩
  have hAll : allSome ((grid2 r1 r2).map (fun p =>
      (smaPointVal expF st.closes st.rets p).map (fun x => -x))) =
      some vals := by
    rw [← hrun.1, hr]
  have hmapg := allSome_eq_some_iff.mp hAll
  -- the final evaluation at the selected point
  have hfin_val : (smaUpdateAndRun expF
      (runPts (smaUpdateAndRun expF) st (grid2 r1 r2)).1 op.1).2 =
      (smaPointVal expF st.closes st.rets op.1).map (fun x => -x) :=
    (hP _ op.1 hrun.2).1
  have hvv : (smaPointVal expF st.closes st.rets op.1).map (fun x => -x) =
      some v := by rw [← hfin_val, hfin]
  have hpv : smaPointVal expF st.closes st.rets op.1 = some (-v) := by
    rcases hq : smaPointVal expF st.closes st.rets op.1 with _ | w
    · rw [hq] at hvv
      cases hvv
    · rw [hq] at hvv
      simp only [Option.map_some', Option.some.injEq] at hvv
      rw [← hvv, neg_neg]
  refine ⟨vals, op, hmapg, hm, hopt, ?_, ?_, ?_⟩
  · -- best = -op.2: the final run returns the recorded value of op
    -- v and op.2 both satisfy the g-equation at op.1
    have hmem : op ∈ (grid2 r1 r2).zip vals :=
      (argminFirstP_spec _ op hm).1
    obtain ⟨k, hk, hval⟩ := List.mem_iff_getElem.mp hmem
    have hkg : k < (grid2 r1 r2).length := by
      rw [List.length_zip] at hk
      omega
    have hkv : k < vals.length := by
      rw [List.length_zip] at hk
      omega
    have hz : ((grid2 r1 r2).zip vals)[k] = ((grid2 r1 r2)[k], vals[k]) :=
      List.getElem_zip
    have hgk : (smaPointVal expF st.closes st.rets
        ((grid2 r1 r2)[k])).map (fun x => -x) = some (vals[k]) := by
      have h1 := congrArg (fun l => l[k]?) hmapg
      simp only [List.getElem?_map] at h1
      rw [List.getElem?_eq_getElem hkg, List.getElem?_eq_getElem hkv] at h1
      simpa using h1
    have hop : op = ((grid2 r1 r2)[k], vals[k]) := by rw [← hval, hz]
    rw [hop]
    simp only
    rw [hop] at hvv
    simp only at hvv
    rw [hgk] at hvv
    injection hvv with hvv'
    rw [hbest, hvv']
  · rw [hopt, hpv, hbest]
  · rw [hstate, hopt]
    exact (smaUpdateAndRun_spec expF _ op.1).2.imp
      (fun e => by rw [e, hrun.2.1])
      (fun e => e.imp (fun e2 => by rw [e2, hrun.2.2.1])
        (fun e3 => e3.imp (fun e4 => by rw [e4, hrun.2.2.2])
          (fun e5 => e5.imp id (fun e6 => e6.imp id (fun e7 => e7.imp
            (fun e8 => by rw [e8, hrun.2.1])
            (fun e9 => e9.imp (fun ea => by rw [ea, hrun.2.1])
              (fun eb => by rw [eb, hrun.2.1, hrun.2.2.1])))))))

/-- C4: a successful optimize_parameters run evaluates the full Cartesian
grid (its size is the product of the two axis cardinalities, enumerated
row-major), coerces each candidate to an integer before use (truncation
invariance of the objective), and returns a grid point whose absolute
performance is numerically greatest together with that performance; on ties
the returned point is the first encountered in row-major order (every grid
point strictly before it performs strictly worse). -/
theorem c4_grid_search [FloorRing α] (expF : α → α) (st : SMAState α)
    (r1 r2 : α × α × α) (opt : α × α) (best : α)
    (h : (smaOptimize expF st r1 r2).2 = some (opt, best)) :
    (grid2 r1 r2).length = (arange r1).length * (arange r2).length ∧
    opt ∈ grid2 r1 r2 ∧
    smaPointVal expF st.closes st.rets opt = some best ∧
    (∀ q ∈ grid2 r1 r2, ∀ w, smaPointVal expF st.closes st.rets q = some w →
      w ≤ best) ∧
    (∃ pre post, grid2 r1 r2 = pre ++ opt :: post ∧
      ∀ q ∈ pre, ∀ w, smaPointVal expF st.closes st.rets q = some w →
        w < best) ∧
    (∀ p : α × α, smaPointVal expF st.closes st.rets p =
      smaPointVal expF st.closes st.rets
        (((pyTrunc p.1 : ℤ) : α), ((pyTrunc p.2 : ℤ) : α))) := by
  obtain ⟨vals, op, hmapg, hm, hopt, hbest, hpv, _⟩ :=
    smaOptimize_full expF st r1 r2 opt best h
  have hlen : (grid2 r1 r2).length = vals.length := by
    have := congrArg List.length hmapg
    simpa using this
  have hpair : ∀ pr ∈ (grid2 r1 r2).zip vals,
      smaPointVal expF st.closes st.rets pr.1 = some (-pr.2) := by
    intro pr hmem
    obtain ⟨k, hk, hval⟩ := List.mem_iff_getElem.mp hmem
    have hkg : k < (grid2 r1 r2).length := by
      rw [List.length_zip] at hk
      omega
    have hkv : k < vals.length := by
      rw [List.length_zip] at hk
      omega
    have hz : ((grid2 r1 r2).zip vals)[k] = ((grid2 r1 r2)[k], vals[k]) :=
      List.getElem_zip
    have hgk : (smaPointVal expF st.closes st.rets
        ((grid2 r1 r2)[k])).map (fun x => -x) = some (vals[k]) := by
      have h1 := congrArg (fun l => l[k]?) hmapg
      simp only [List.getElem?_map] at h1
      rw [List.getElem?_eq_getElem hkg, List.getElem?_eq_getElem hkv] at h1
      simpa using h1
    have hop : pr = ((grid2 r1 r2)[k], vals[k]) := by rw [← hval, hz]
    subst hop
    simp only
    rcases hq : smaPointVal expF st.closes st.rets ((grid2 r1 r2)[k]) with _ | w
    · rw [hq] at hgk
      cases hgk
    · rw [hq] at hgk
      simp only [Option.map_some', Option.some.injEq] at hgk
      rw [← hgk, neg_neg]
  obtain ⟨hmem_z, hmin_z, pre_z, post_z, hdec_z, hpre_z⟩ :=
    argminFirstP_spec _ op hm
  have hfst : ((grid2 r1 r2).zip vals).map Prod.fst = grid2 r1 r2 :=
    List.map_fst_zip _ _ (le_of_eq hlen)
  refine ⟨?_, ?_, hpv, ?_, ?_, ?_⟩
  · rw [grid2, List.length_flatMap]
    have hconst : (arange r1).map
        (List.length ∘ fun x => (arange r2).map fun y => (x, y)) =
        List.replicate (arange r1).length (arange r2).length := by
      rw [← List.map_const]
      refine List.map_congr_left (fun a _ => ?_)
      simp [Function.comp]
    rw [hconst, List.sum_replicate, smul_eq_mul]
  · rw [hopt]
    exact (List.of_mem_zip hmem_z).1
  · intro q hq w hw
    obtain ⟨k, hk, hval⟩ := List.mem_iff_getElem.mp hq
    have hkz : k < ((grid2 r1 r2).zip vals).length := by
      rw [List.length_zip]
      omega
    have hz : ((grid2 r1 r2).zip vals)[k] = ((grid2 r1 r2)[k], vals[k]) :=
      List.getElem_zip
    have hmemz : ((grid2 r1 r2)[k], vals[k]) ∈ (grid2 r1 r2).zip vals := by
      rw [← hz]
      exact List.getElem_mem hkz
    have hq_val := hpair _ hmemz
    simp only at hq_val
    have hw' : w = -vals[k] := by
      rw [hval] at hq_val
      rw [hq_val] at hw
      injection hw with hw'
      exact hw'.symm
    rw [hw', hbest]
    have := hmin_z _ hmemz
    simp only at this
    exact neg_le_neg this
  · refine ⟨pre_z.map Prod.fst, post_z.map Prod.fst, ?_, ?_⟩
    · rw [← hfst, hdec_z, List.map_append, List.map_cons, hopt]
    · intro q hqpre w hw
      obtain ⟨pr, hpr, hpr1⟩ := List.mem_map.mp hqpre
      have hprz : pr ∈ (grid2 r1 r2).zip vals := by
        rw [hdec_z]
        exact List.mem_append_left _ hpr
      have hq_val := hpair pr hprz
      rw [hpr1] at hq_val
      rw [hq_val] at hw
      injection hw with hw'
      rw [← hw', hbest]
      exact neg_lt_neg (hpre_z pr hpr)
  · intro p
    simp only [smaPointVal, smaRunAt, pyTrunc_intCast]

/-- C9: after a successful optimize_parameters run the instance is left
re-parameterized at the returned optimum: the window attributes are the
int-coerced grid point, both SMA columns are the ones recomputed for those
windows from the unchanged Close column, the stored result is the backtest
result at that point (the optimum is re-run once more before returning), and
the returned performance equals that final backtest's absolute performance. -/
theorem c9_optimizer_final_state [FloorRing α] (expF : α → α)
    (st : SMAState α) (r1 r2 : α × α × α) (opt : α × α) (best : α)
    (h : (smaOptimize expF st r1 r2).2 = some (opt, best)) :
    (smaOptimize expF st r1 r2).1.closes = st.closes ∧
    (smaOptimize expF st r1 r2).1.rets = st.rets ∧
    (smaOptimize expF st r1 r2).1.tc = st.tc ∧
    (smaOptimize expF st r1 r2).1.smaS = pyTrunc opt.1 ∧
    (smaOptimize expF st r1 r2).1.smaL = pyTrunc opt.2 ∧
    (smaOptimize expF st r1 r2).1.colS =
      rollingMeanZ (pyTrunc opt.1) st.closes ∧
    (smaOptimize expF st r1 r2).1.colL =
      rollingMeanZ (pyTrunc opt.2) st.closes ∧
    (smaOptimize expF st r1 r2).1.results =
      some (smaRunAt expF st.closes st.rets opt).1 ∧
    smaPointVal expF st.closes st.rets opt = some best := by
  obtain ⟨vals, op, hmapg, hm, hopt, hbest, hpv, hstate⟩ :=
    smaOptimize_full expF st r1 r2 opt best h
  exact ⟨hstate.1, hstate.2.1, hstate.2.2.1, hstate.2.2.2.1,
    hstate.2.2.2.2.1, hstate.2.2.2.2.2.1, hstate.2.2.2.2.2.2.1,
    hstate.2.2.2.2.2.2.2, hpv⟩

/-- A fully evaluated run of the backtest at the grid point (2, 2) on the
price series [1, 2, 4] (identity in place of the float log/exp): the
position is short throughout, the single result row earns -2, so the absolute
performance is -2. -/
theorem smaPointVal_example :
    smaPointVal (id : ℚ → ℚ) [1, 2, 4] (logReturns id [1, 2, 4])
      ((2 : ℚ), 2) = some (-2) := by
  have hptr : pyTrunc ((2 : ℚ)) = 2 := by norm_num [pyTrunc]
  norm_num [smaPointVal, smaRunAt, hptr, rollingMeanZ, rollingMeanOpt,
    windowEnd, allSome, logReturns, List.range_succ, dropRows3, dropCells3,
    runPlain, crossPositions, resultRows, rawStrategy, stratTail, cumsum,
    List.reduceOption, List.getD, row3]

/-- A fully evaluated optimize_parameters run over the singleton grid
(2, 3, 1) x (2, 3, 1): the only grid point (2, 2) wins with performance -2. -/
theorem smaOptimize_example :
    (smaOptimize (id : ℚ → ℚ) (smaInit id ([1, 2, 4] : List ℚ) 1 1 0)
      ((2 : ℚ), 3, 1) ((2 : ℚ), 3, 1)).2 = some (((2 : ℚ), (2 : ℚ)), -2) := by
  have har : arange ((2 : ℚ), 3, 1) = [2] := by
    rw [arange]
    norm_num
    norm_num [List.range_succ, show Int.toNat 1 = 1 from rfl]
  have hgrid : grid2 ((2 : ℚ), 3, 1) ((2 : ℚ), 3, 1) = [(2, 2)] := by
    rw [grid2, har]
    rfl
  have h1 : (smaUpdateAndRun (id : ℚ → ℚ)
      (smaInit id ([1, 2, 4] : List ℚ) 1 1 0) ((2 : ℚ), 2)).2 = some 2 := by
    rw [(smaUpdateAndRun_spec (id : ℚ → ℚ)
      (smaInit id ([1, 2, 4] : List ℚ) 1 1 0) ((2 : ℚ), 2)).1]
    show (smaPointVal (id : ℚ → ℚ) [1, 2, 4] (logReturns id [1, 2, 4])
      ((2 : ℚ), 2)).map (fun x => -x) = some 2
    rw [smaPointVal_example]
    norm_num
  have h2 : (smaUpdateAndRun (id : ℚ → ℚ)
      (smaUpdateAndRun (id : ℚ → ℚ) (smaInit id ([1, 2, 4] : List ℚ) 1 1 0)
        ((2 : ℚ), 2)).1 ((2 : ℚ), 2)).2 = some 2 := by
    have hsp := smaUpdateAndRun_spec (id : ℚ → ℚ)
      (smaUpdateAndRun (id : ℚ → ℚ) (smaInit id ([1, 2, 4] : List ℚ) 1 1 0)
        ((2 : ℚ), 2)).1 ((2 : ℚ), 2)
    rw [hsp.1]
    have hc : (smaUpdateAndRun (id : ℚ → ℚ)
        (smaInit id ([1, 2, 4] : List ℚ) 1 1 0) ((2 : ℚ), 2)).1.closes =
        ([1, 2, 4] : List ℚ) :=
      (smaUpdateAndRun_spec _ _ _).2.1
    have hrets : (smaUpdateAndRun (id : ℚ → ℚ)
        (smaInit id ([1, 2, 4] : List ℚ) 1 1 0) ((2 : ℚ), 2)).1.rets =
        logReturns id ([1, 2, 4] : List ℚ) :=
      (smaUpdateAndRun_spec _ _ _).2.2.1
    rw [hc, hrets, smaPointVal_example]
    norm_num
  norm_num [smaOptimize, hgrid, runPts, h1, h2, argminFirstP]

/-- Witness for C4: on the singleton grid the winning point (2, 2) is in the
grid and its absolute performance is the returned -2. -/
theorem c4_grid_search_witness :
    (smaOptimize (id : ℚ → ℚ) (smaInit id ([1, 2, 4] : List ℚ) 1 1 0)
      ((2 : ℚ), 3, 1) ((2 : ℚ), 3, 1)).2 = some (((2 : ℚ), (2 : ℚ)), -2) ∧
    ((2 : ℚ), (2 : ℚ)) ∈ grid2 ((2 : ℚ), 3, 1) ((2 : ℚ), 3, 1) ∧
    smaPointVal (id : ℚ → ℚ)
      (smaInit id ([1, 2, 4] : List ℚ) 1 1 0).closes
      (smaInit id ([1, 2, 4] : List ℚ) 1 1 0).rets ((2 : ℚ), 2) =
      some (-2) :=
  ⟨smaOptimize_example,
    (c4_grid_search id _ _ _ _ _ smaOptimize_example).2.1,
    (c4_grid_search id _ _ _ _ _ smaOptimize_example).2.2.1⟩

/-- Witness for C9: after the singleton-grid run the instance's short window
attribute is the int-coerced optimum 2 and its stored result is the backtest
frame at (2, 2). -/
theorem c9_optimizer_final_state_witness :
    (smaOptimize (id : ℚ → ℚ) (smaInit id ([1, 2, 4] : List ℚ) 1 1 0)
      ((2 : ℚ), 3, 1) ((2 : ℚ), 3, 1)).2 = some (((2 : ℚ), (2 : ℚ)), -2) ∧
    (smaOptimize (id : ℚ → ℚ) (smaInit id ([1, 2, 4] : List ℚ) 1 1 0)
      ((2 : ℚ), 3, 1) ((2 : ℚ), 3, 1)).1.smaS = pyTrunc ((2 : ℚ)) ∧
    (smaOptimize (id : ℚ → ℚ) (smaInit id ([1, 2, 4] : List ℚ) 1 1 0)
      ((2 : ℚ), 3, 1) ((2 : ℚ), 3, 1)).1.results =
      some (smaRunAt id
        (smaInit id ([1, 2, 4] : List ℚ) 1 1 0).closes
        (smaInit id ([1, 2, 4] : List ℚ) 1 1 0).rets ((2 : ℚ), 2)).1 :=
  ⟨smaOptimize_example,
    (c9_optimizer_final_state id _ _ _ _ _ smaOptimize_example).2.2.2.1,
    (c9_optimizer_final_state id _ _ _ _ _
      smaOptimize_example).2.2.2.2.2.2.2.1⟩

end TAB
